import Mathlib

/-!
# MolSSI Driver Interface: connection establishment and communicator registry

A shallow embedding of `src/molssi_driver_interface/mdi.cpp`.

* The file-level `static` variables of `mdi.cpp`, together with the registry
  (`communicators`, `returned_comms`) of `mdi_global.h`, form the record `State`.
* Every call into the operating system or into MPI is appended to `State.log`;
  the value such a call returns is supplied by an `Env`, indexed by how many calls
  of that kind have been made so far.
* `exit` is modelled by `Outcome.exit`; the unbounded retry loop of
  `MDI_Request_Connection_TCP` takes a fuel argument.
* A local of `MDI_Init` declared without an initialiser is an `Option`, `none` until the
  reading loop assigns it; a read of such a local while it is `none` is undefined
  behaviour, `Outcome.fault`.
-/

namespace MDI

/-! ## Data model -/

/-- An MPI communicator handle, recorded symbolically. -/
inductive MPI_Comm where
  /-- the value of a variable that was never assigned -/
  | unassigned
  /-- the communicator spanning every rank of every code -/
  | MPI_COMM_WORLD
  /-- a handle supplied by the caller of `MDI_Init` -/
  | handle (id : Int)
  /-- what `MPI_Comm_split(MPI_COMM_WORLD, color, key, &c)` stores in `c`, for the call
  preceded by `serial` earlier calls of `MPI_Comm_split` -/
  | split (serial : Nat) (color key : Int)
  deriving DecidableEq, Repr

/-- The two communicator classes constructed in `mdi.cpp`. -/
inductive Communicator where
  /-- the object built by `new CommunicatorTCP( MDI_TCP, sockfd )` -/
  | CommunicatorTCP (sockfd : Int)
  /-- the object built by `new CommunicatorMPI( MDI_MPI, new_mpi_comm, key )` -/
  | CommunicatorMPI (mpi_comm : MPI_Comm) (key : Int)
  deriving DecidableEq, Repr

/-- One call into the operating system, the C library or MPI. -/
inductive Call where
  | socket
  | signal_SIGINT
  | setsockopt (sockfd : Int)
  | bind (sockfd : Int) (port : Int)
  | listen (sockfd : Int) (backlog : Int)
  | accept (sockfd : Int)
  | gethostbyname (hostname : String)
  | connect (sockfd : Int) (port : Int)
  | close (sockfd : Int)
  | MPI_Comm_size
  | MPI_Comm_rank
  | MPI_Allgather (buffer : String)
  | MPI_Comm_split (color key : Int)
  | MPI_Barrier
  | perror (message : String)
  /-- the transfer made by `send_comm->send(buf, count, datatype)` -/
  | send (comm : Communicator) (buf : List Int) (count datatype : Int)
  /-- the transfer made by `recv_comm->recv(buf, count, datatype)` -/
  | recv (comm : Communicator) (count datatype : Int)
  deriving DecidableEq, Repr

namespace Call

def isSocket : Call → Bool
  | socket => true
  | _ => false

def isSetsockopt : Call → Bool
  | setsockopt _ => true
  | _ => false

def isBind : Call → Bool
  | bind _ _ => true
  | _ => false

def isListen : Call → Bool
  | listen _ _ => true
  | _ => false

def isAccept : Call → Bool
  | accept _ => true
  | _ => false

def isGethostbyname : Call → Bool
  | gethostbyname _ => true
  | _ => false

def isConnect : Call → Bool
  | connect _ _ => true
  | _ => false

def isClose : Call → Bool
  | close _ => true
  | _ => false

def isSplit : Call → Bool
  | MPI_Comm_split _ _ => true
  | _ => false

def isTransfer : Call → Bool
  | send _ _ _ _ => true
  | recv _ _ _ => true
  | _ => false

def isPerror : Call → Bool
  | perror _ => true
  | _ => false

/-- The transport calls: those that create, configure, use or close a socket, resolve a
host, or are collective over the process group. Rank and size queries, the installation of
the signal handler and diagnostics are local. -/
def isTransport : Call → Bool
  | socket => true
  | setsockopt _ => true
  | bind _ _ => true
  | listen _ _ => true
  | accept _ => true
  | gethostbyname _ => true
  | connect _ _ => true
  | close _ => true
  | MPI_Allgather _ => true
  | MPI_Comm_split _ _ => true
  | MPI_Barrier => true
  | send _ _ _ _ => true
  | recv _ _ _ => true
  | signal_SIGINT => false
  | MPI_Comm_size => false
  | MPI_Comm_rank => false
  | perror _ => false

end Call

/-- How one `connect` call ends: `ret >= 0`, or `ret < 0` with the given `errno`. -/
inductive ConnectResult where
  | connected
  | ECONNREFUSED
  | other_errno
  deriving DecidableEq, Repr

/-- What `gethostbyname` returns: `NULL`, or an entry with its `h_addrtype`. -/
inductive HostEnt where
  | null
  | entry (is_AF_INET : Bool)
  deriving DecidableEq, Repr

/-- The values returned by the environment. Each `Nat` argument is the number of earlier
calls of the same kind, so `socket_res 0` is what the first `socket()` returns. -/
structure Env where
  socket_res : Nat → Int
  setsockopt_res : Nat → Int
  bind_res : Nat → Int
  listen_res : Nat → Int
  accept_res : Nat → Int
  gethostbyname_res : Nat → HostEnt
  connect_res : Nat → ConnectResult
  close_res : Nat → Int
  /-- the names contributed to `MPI_Allgather`, one per rank of `MPI_COMM_WORLD` -/
  names : List String
  /-- rank of the calling process in `MPI_COMM_WORLD` -/
  world_rank : Nat
  /-- rank of the calling process in the communicator handed to `MDI_Init` -/
  mpi_rank : Int
  /-- rank of the calling process inside the sub-group `split color key` -/
  split_rank : Int → Int → Int
  /-- whether the `k`-th transfer over a communicator completes (`>= 0`) or the transport
  fails (`< 0`) -/
  transfer_res : Nat → Int
  /-- the values the `k`-th transfer delivers when it is a receive -/
  recv_data : Nat → List Int

/-- The process-wide variables: the statics of `mdi.cpp`, `driver_sockfd`, the registry,
and the record of calls made so far. The registry `communicators` and its cursor
`returned_comms` are declared in `mdi_global.h`, which is not among the sources; following
the specification they are an ordered sequence of communicators and the number of entries
already handed to the caller. -/
structure State where
  any_initialization : Int
  mpi_initialization : Int
  intra_MPI_comm : MPI_Comm
  tcp_socket : Int
  world_rank : Int
  intra_rank : Int
  mpi_code_rank : Int
  driver_sockfd : Int
  communicators : List Communicator
  returned_comms : Int
  log : List Call
  deriving DecidableEq, Repr

/-- The state of a process before any call into the library, from the initialisers of the
statics in `mdi.cpp`; the registry starts empty with the cursor at zero. -/
def State.initial : State where
  any_initialization := 0
  mpi_initialization := 0
  intra_MPI_comm := MPI_Comm.unassigned
  tcp_socket := -1
  world_rank := -1
  intra_rank := -1
  mpi_code_rank := 0
  driver_sockfd := 0
  communicators := []
  returned_comms := 0
  log := []

/-- Record one call. -/
def State.call (s : State) (c : Call) : State :=
  { s with log := s.log ++ [c] }

/-- Number of calls made so far that satisfy `p`. -/
def State.count (s : State) (p : Call → Bool) : Nat :=
  s.log.countP p

/-- The statement `if ( any_initialization == 0 ) { any_initialization = 1; }`, which opens
both `MDI_Request_Connection_TCP` (lines 247-250) and the dispatch of `MDI_Init` (lines
475-478). -/
def State.set_any_initialization (s : State) : State :=
  if s.any_initialization = 0 then { s with any_initialization := 1 } else s

/-- Modelled from the spec: `MDI_NULL_COMM` of `mdi.h`, which is not among the sources;
handle `0` is reserved to mean "no communicator available". -/
def MDI_NULL_COMM : Int := 0

/-- Modelled from the spec: the constructor of `Communicator` (`communicator.h`, not among
the sources). The objects created with `new` in `mdi.cpp` are never stored by the caller;
the constructor appends the new communicator at the end of the registry. -/
def State.new_communicator (s : State) (c : Communicator) : State :=
  { s with communicators := s.communicators ++ [c] }

/-- How a library call ends. -/
inductive Outcome (α : Type) where
  /-- the function returned `value` -/
  | ret (value : α) (s : State)
  /-- the process was terminated by `exit(status)` -/
  | exit (status : Int) (s : State)
  /-- the connect loop was still retrying when the fuel ran out -/
  | retrying
  /-- undefined behaviour: a read of a variable that was never assigned, a store through a
  null pointer, or an index outside the registry -/
  | fault (s : State)
  deriving DecidableEq, Repr

/-- The value a call returned, if it returned. -/
def Outcome.returned {α : Type} : Outcome α → Option α
  | Outcome.ret value _ => some value
  | _ => none

/-- `mdi_error`: report the message and terminate with status 1. -/
def mdi_error {α : Type} (message : String) (s : State) : Outcome α :=
  Outcome.exit 1 (s.call (Call.perror message))

/-! ## MDI_Accept_Communicator -/

/-- `MDI_Accept_Communicator` (mdi.cpp, lines 544-576). -/
def MDI_Accept_Communicator (env : Env) (s : State) : Outcome Int :=
  if s.returned_comms < (s.communicators.length : Int) then
    Outcome.ret (s.returned_comms + 1) { s with returned_comms := s.returned_comms + 1 }
  else if s.tcp_socket > 0 then
    let connection := env.accept_res (s.count Call.isAccept)
    let s1 := s.call (Call.accept s.tcp_socket)
    if connection < 0 then
      Outcome.exit (-1) (s1.call (Call.perror "Could not accept connection"))
    else
      let s2 := s1.new_communicator (Communicator.CommunicatorTCP connection)
      if s2.returned_comms < (s2.communicators.length : Int) then
        Outcome.ret (s2.returned_comms + 1) { s2 with returned_comms := s2.returned_comms + 1 }
      else
        Outcome.ret MDI_NULL_COMM s2
  else
    Outcome.ret MDI_NULL_COMM s

/-- The registry entry a handle designates: `communicators[comm-1]`, as indexed by
`MDI_Send` and `MDI_Recv` (mdi.cpp, lines 599 and 626). -/
def State.communicator_of (s : State) (comm : Int) : Option Communicator :=
  if 1 ≤ comm then s.communicators.get? (comm - 1).toNat else none

/-- Successive calls of `MDI_Accept_Communicator`, collecting the handles returned. -/
def accept_calls (env : Env) : Nat → State → Outcome (List Int)
  | 0, s => Outcome.ret [] s
  | n + 1, s =>
    match MDI_Accept_Communicator env s with
    | Outcome.ret h s1 =>
      match accept_calls env n s1 with
      | Outcome.ret hs s2 => Outcome.ret (h :: hs) s2
      | Outcome.exit status s2 => Outcome.exit status s2
      | Outcome.retrying => Outcome.retrying
      | Outcome.fault s2 => Outcome.fault s2
    | Outcome.exit status s1 => Outcome.exit status s1
    | Outcome.retrying => Outcome.retrying
    | Outcome.fault s1 => Outcome.fault s1

/-! ## MDI_Listen_TCP -/

/-- `MDI_Listen_TCP` (mdi.cpp, lines 191-240). -/
def MDI_Listen_TCP (env : Env) (port : Int) (s : State) : Int × State :=
  let sockfd := env.socket_res (s.count Call.isSocket)
  let s := s.call Call.socket
  if sockfd < 0 then
    (-1, s.call (Call.perror "Could not create socket"))
  else
    let s := { s with driver_sockfd := sockfd }
    let s := s.call Call.signal_SIGINT
    let ret := env.setsockopt_res (s.count Call.isSetsockopt)
    let s := s.call (Call.setsockopt sockfd)
    if ret < 0 then
      (-1, s.call (Call.perror "Could not reuse socket"))
    else
      let ret := env.bind_res (s.count Call.isBind)
      let s := s.call (Call.bind sockfd port)
      if ret < 0 then
        (-1, s.call (Call.perror "Could not bind socket"))
      else
        let ret := env.listen_res (s.count Call.isListen)
        let s := s.call (Call.listen sockfd 20)
        if ret < 0 then
          (-1, s.call (Call.perror "Could not listen"))
        else
          (0, { s with tcp_socket := sockfd })

/-! ## MDI_Request_Connection_TCP -/

/-- The `while (try_connect == 1)` loop of `MDI_Request_Connection_TCP` (mdi.cpp, lines
284-316) together with the statements after it; `none` when the fuel runs out while the
loop is still retrying. -/
def connect_loop (env : Env) (port : Int) : Nat → Int → State → Option (Int × State)
  | 0, _, _ => none
  | fuel + 1, sockfd, s =>
    let result := env.connect_res (s.count Call.isConnect)
    let s := s.call (Call.connect sockfd port)
    match result with
    | ConnectResult.connected =>
      some (0, s.new_communicator (Communicator.CommunicatorTCP sockfd))
    | ConnectResult.ECONNREFUSED =>
      let ret := env.close_res (s.count Call.isClose)
      let s := s.call (Call.close sockfd)
      if ret < 0 then
        some (-1, s.call (Call.perror "Could not close socket"))
      else
        let sockfd := env.socket_res (s.count Call.isSocket)
        let s := s.call Call.socket
        if sockfd < 0 then
          some (-1, s.call (Call.perror "Could not create socket"))
        else
          connect_loop env port fuel sockfd s
    | ConnectResult.other_errno =>
      some (-1, s.call (Call.perror "Could not connect to the driver"))

/-- `MDI_Request_Connection_TCP` (mdi.cpp, lines 243-319). -/
def MDI_Request_Connection_TCP (env : Env) (fuel : Nat) (port : Int) (hostname_ptr : String)
    (s : State) : Option (Int × State) :=
  let s := s.set_any_initialization
  let host_ptr := env.gethostbyname_res (s.count Call.isGethostbyname)
  let s := s.call (Call.gethostbyname hostname_ptr)
  match host_ptr with
  | HostEnt.null => some (-1, s.call (Call.perror "Error in gethostbyname"))
  | HostEnt.entry false => some (-1, s.call (Call.perror "Unkown address type"))
  | HostEnt.entry true =>
    let sockfd := env.socket_res (s.count Call.isSocket)
    let s := s.call Call.socket
    if sockfd < 0 then
      some (-1, s.call (Call.perror "Could not create socket"))
    else
      connect_loop env port fuel sockfd s

/-! ## gather_names -/

/-- The result of `MPI_Allgather` on this rank: one name per global rank, the entry of the
calling rank being the buffer it contributed. -/
def MPI_Allgather (env : Env) (buffer : String) : List String :=
  env.names.set env.world_rank buffer

/-- The loop of `gather_names` that determines `driver_rank` (mdi.cpp, lines 117-126). -/
def find_driver_rank (names : List String) : Int :=
  (List.range names.length).foldl
    (fun driver_rank i =>
      if driver_rank = -1 then
        if names.getD i "" = "" then (i : Int) else driver_rank
      else driver_rank)
    (-1)

/-- The variables updated by the communicator loop of `gather_names`. -/
structure GatherVars where
  nunique_names : Int
  unique_names : List String
  s : State
  deriving DecidableEq, Repr

/-- The inner loop over `j < i` (mdi.cpp, lines 138-145): is `name` the name of an earlier
rank? -/
def found_earlier (names : List String) (name : String) (i : Nat) : Int :=
  (List.range i).foldl (fun found j => if name = names.getD j "" then 1 else found) 0

/-- The `color` passed to `MPI_Comm_split` at iteration `i` (mdi.cpp, lines 160-168). -/
def split_color (world_rank driver_rank : Int) (i : Nat) : Int :=
  if world_rank = driver_rank then 1 else if world_rank = (i : Int) then 1 else 0

/-- The `key` passed to `MPI_Comm_split` at iteration `i` (mdi.cpp, lines 160-168). -/
def split_key (world_rank driver_rank : Int) (i : Nat) : Int :=
  if world_rank = driver_rank then 0 else if world_rank = (i : Int) then 1 else 0

/-- One iteration of the loop that creates the communicators (mdi.cpp, lines 134-175). -/
def gather_body (names : List String) (world_rank : Nat) (driver_rank : Int)
    (v : GatherVars) (i : Nat) : GatherVars :=
  let name := names.getD i ""
  let found := found_earlier names name i
  if found = 0 ∧ name ≠ "" then
    let unique_names := v.unique_names ++ [name]
    let nunique_names := v.nunique_names + 1
    let my_name := names.getD world_rank ""
    let s := if my_name = name then { v.s with mpi_code_rank := nunique_names } else v.s
    let color := split_color world_rank driver_rank i
    let key := split_key world_rank driver_rank i
    let new_mpi_comm := MPI_Comm.split (s.count Call.isSplit) color key
    let s := s.call (Call.MPI_Comm_split color key)
    let s :=
      if (world_rank : Int) = driver_rank ∨ world_rank = i then
        s.new_communicator (Communicator.CommunicatorMPI new_mpi_comm key)
      else s
    { nunique_names := nunique_names, unique_names := unique_names, s := s }
  else v

/-- The communicator loop of `gather_names` run over the ranks `0 .. n-1`. -/
def gather_loop (names : List String) (world_rank : Nat) (driver_rank : Int)
    (v : GatherVars) (n : Nat) : GatherVars :=
  (List.range n).foldl (gather_body names world_rank driver_rank) v

/-- `gather_names` (mdi.cpp, lines 84-188). The name is assumed shorter than
`MDI_NAME_LENGTH`, so that `strcpy` into `buffer` stays in bounds and `strcmp` on the
fixed-width slots compares the names. -/
def gather_names (env : Env) (hostname_ptr : String) (do_split : Bool) (s : State) :
    Int × State :=
  let world_size := env.names.length
  let s := s.call Call.MPI_Comm_size
  let world_rank := env.world_rank
  let s := { s.call Call.MPI_Comm_rank with world_rank := (world_rank : Int) }
  let names := MPI_Allgather env hostname_ptr
  let s := s.call (Call.MPI_Allgather hostname_ptr)
  let driver_rank := find_driver_rank names
  let s :=
    if driver_rank = -1 then
      s.call (Call.perror "Unable to identify driver when attempting to connect via MPI")
    else s
  let v := gather_loop names world_rank driver_rank
    { nunique_names := 0, unique_names := [], s := s } world_size
  let s := v.s
  let s :=
    if do_split then
      let s := { s.call (Call.MPI_Comm_split s.mpi_code_rank s.world_rank) with
        intra_MPI_comm := MPI_Comm.split (s.count Call.isSplit) s.mpi_code_rank s.world_rank }
      let s := { s.call Call.MPI_Comm_rank with
        intra_rank := env.split_rank s.mpi_code_rank s.world_rank }
      s.call Call.MPI_Barrier
    else s
  (0, s)

/-- The state in which the communicator loop of `gather_names` starts. -/
def gather_entry (env : Env) (hostname_ptr : String) (s : State) : State :=
  let s := s.call Call.MPI_Comm_size
  let s := { s.call Call.MPI_Comm_rank with world_rank := (env.world_rank : Int) }
  let s := s.call (Call.MPI_Allgather hostname_ptr)
  if find_driver_rank (MPI_Allgather env hostname_ptr) = -1 then
    s.call (Call.perror "Unable to identify driver when attempting to connect via MPI")
  else s

/-- The variables with which the communicator loop of `gather_names` ends. -/
def gather_exit (env : Env) (hostname_ptr : String) (s : State) : GatherVars :=
  gather_loop (MPI_Allgather env hostname_ptr) env.world_rank
    (find_driver_rank (MPI_Allgather env hostname_ptr))
    { nunique_names := 0, unique_names := [], s := gather_entry env hostname_ptr s }
    env.names.length

/-! ## MDI_Init -/

/-- The tokens `strtok(line, " ")` yields: the maximal runs of characters other than the
space. `cur` holds the characters of the token being read, latest first. -/
def strtok_from : List Char → List Char → List String
  | [], cur => if cur = [] then [] else [String.mk cur.reverse]
  | c :: cs, cur =>
    if c = ' ' then
      if cur = [] then strtok_from cs [] else String.mk cur.reverse :: strtok_from cs []
    else strtok_from cs (c :: cur)

/-- The array `argv` computed from the option string (mdi.cpp, lines 376-392). -/
def calculate_argv (options : String) : List String :=
  strtok_from options.data []

/-- The digits at the start of a string, as read by `strtol` in base 10. -/
def strtol_digits : List Char → Nat → Nat
  | [], acc => acc
  | c :: cs, acc => if c.isDigit then strtol_digits cs (10 * acc + (c.toNat - 48)) else acc

/-- The leading white space `strtol` skips. -/
def strtol_skip : List Char → List Char
  | [] => []
  | c :: cs => if c.isWhitespace ∨ c = '\x0b' ∨ c = '\x0c' then strtol_skip cs else c :: cs

/-- `port = strtol(str, &strtol_ptr, 10)`: white space, an optional sign and decimal
digits; the `long` result is clamped to 64 bits and stored in an `int` of 32 bits. -/
def strtol_int (str : String) : Int :=
  let value : Int :=
    match strtol_skip str.data with
    | '-' :: cs => - (strtol_digits cs 0 : Int)
    | '+' :: cs => (strtol_digits cs 0 : Int)
    | cs => (strtol_digits cs 0 : Int)
  let long := max (-(2 : Int) ^ 63) (min value ((2 : Int) ^ 63 - 1))
  (long + 2 ^ 31) % 2 ^ 32 - 2 ^ 31

/-- The values acquired from the input options (mdi.cpp, lines 350-362). The locals `role`,
`method`, `name`, `hostname`, `port` and `language` are declared without an initialiser:
`none` stands for a local that was never assigned. The flag `has_language` is written but
never read and is left out. -/
structure Options where
  role : Option String
  method : Option String
  name : Option String
  hostname : Option String
  port : Option Int
  language : Option String
  has_role : Int
  has_method : Int
  has_name : Int
  has_hostname : Int
  has_port : Int
  deriving DecidableEq, Repr

/-- The locals of `MDI_Init` before the options are read: the `has_` flags are zero and no
value has been assigned. -/
def Options.unread : Options where
  role := none
  method := none
  name := none
  hostname := none
  port := none
  language := none
  has_role := 0
  has_method := 0
  has_name := 0
  has_hostname := 0
  has_port := 0

/-- The option names the reading loop knows (mdi.cpp, lines 399-444). -/
def known_options : List String :=
  ["-role", "-method", "-name", "-hostname", "-port", "_language"]

/-- The loop that reads the options (mdi.cpp, lines 394-455); an error is the message
handed to `mdi_error`. -/
def read_options : List String → Options → Except String Options
  | [], o => Except.ok o
  | [arg], _ =>
    if arg = "-role" then Except.error "Argument missing from -role option"
    else if arg = "-method" then Except.error "Argument missing from -method option"
    else if arg = "-name" then Except.error "Argument missing from -name option"
    else if arg = "-hostname" then Except.error "Argument missing from -hostname option"
    else if arg = "-port" then Except.error "Argument missing from -port option"
    else if arg = "_language" then Except.error "Argument missing from _language option"
    else Except.error "Unrecognized option"
  | arg :: value :: rest, o =>
    if arg = "-role" then read_options rest { o with role := some value, has_role := 1 }
    else if arg = "-method" then
      read_options rest { o with method := some value, has_method := 1 }
    else if arg = "-name" then read_options rest { o with name := some value, has_name := 1 }
    else if arg = "-hostname" then
      read_options rest { o with hostname := some value, has_hostname := 1 }
    else if arg = "-port" then
      read_options rest { o with port := some (strtol_int value), has_port := 1 }
    else if arg = "_language" then read_options rest { o with language := some value }
    else Except.error "Unrecognized option"

/-- A read of a local variable of `MDI_Init`: undefined behaviour when the variable was
never assigned, otherwise the computation goes on with its value. -/
def read_local {α β : Type} (x : Option α) (s : State) (k : α → Outcome β) : Outcome β :=
  match x with
  | none => Outcome.fault s
  | some value => k value

/-- The part of `MDI_Init` that selects the establishment path from role and method
(mdi.cpp, lines 480-522). -/
def MDI_Init_establish (env : Env) (fuel : Nat) (o : Options) (do_split : Bool)
    (mpi_rank : Int) (s : State) : Outcome Unit :=
  read_local o.role s fun role =>
  if role = "DRIVER" then
    read_local o.method s fun method =>
    if method = "MPI" then
      let s := (gather_names env "" do_split s).2
      Outcome.ret () { s with mpi_initialization := 1 }
    else if method = "TCP" then
      if o.has_port = 0 then
        mdi_error "Error in MDI_Init: -port option not provided" s
      else if mpi_rank = 0 then
        read_local o.port s fun port =>
        Outcome.ret () (MDI_Listen_TCP env port s).2
      else Outcome.ret () s
    else
      mdi_error "Error in MDI_Init: method not recognized" s
  else if role = "ENGINE" then
    read_local o.method s fun method =>
    if method = "MPI" then
      read_local o.name s fun name =>
      let s := (gather_names env name do_split s).2
      Outcome.ret () { s with mpi_initialization := 1 }
    else if method = "TCP" then
      if o.has_hostname = 0 then
        mdi_error "Error in MDI_Init: -hostname option not provided" s
      else if o.has_port = 0 then
        mdi_error "Error in MDI_Init: -port option not provided" s
      else if mpi_rank = 0 then
        read_local o.port s fun port =>
        read_local o.hostname s fun hostname =>
        match MDI_Request_Connection_TCP env fuel port hostname s with
        | some r => Outcome.ret () r.2
        | none => Outcome.retrying
      else Outcome.ret () s
    else Outcome.ret () s
  else
    mdi_error "Error in MDI_Init: role not recognized" s

/-- The rank of the caller in the communicator handed to `MDI_Init` (mdi.cpp, lines
364-374); a null pointer stands for a single process. -/
def get_mpi_rank (env : Env) (world_comm : Option MPI_Comm) : Int :=
  match world_comm with
  | none => 0
  | some _ => env.mpi_rank

/-- The rank query of lines 364-374 as it appears in the call record. -/
def State.rank_query (s : State) (world_comm : Option MPI_Comm) : State :=
  match world_comm with
  | none => s
  | some _ => s.call Call.MPI_Comm_rank

/-- Whether `gather_names` is asked to split off the intra-code communicator (mdi.cpp,
lines 467-471), from the value read in `language`. -/
def get_do_split (language : String) : Bool :=
  if language = "Python" then false else true

/-- The end of `MDI_Init` (mdi.cpp, lines 524-534): set the communicator the caller's
pointer refers to, and return 0. -/
def MDI_Init_finish (world_comm : Option MPI_Comm) (do_split : Bool) (s : State) :
    Outcome (Int × Option MPI_Comm) :=
  if s.mpi_initialization ≠ 0 then
    if do_split then
      match world_comm with
      | none => Outcome.fault s
      | some _ => Outcome.ret (0, some s.intra_MPI_comm) s
    else Outcome.ret (0, world_comm) s
  else Outcome.ret (0, world_comm) s

/-- `MDI_Init` (mdi.cpp, lines 341-535). `world_comm` is `none` for a null pointer and
otherwise holds the communicator the pointer refers to; the result carries the returned
`int` and the communicator the pointer refers to on return. The local `language` is read
at line 469 whether or not the option `_language` was given. -/
def MDI_Init (env : Env) (fuel : Nat) (options : String) (world_comm : Option MPI_Comm)
    (s : State) : Outcome (Int × Option MPI_Comm) :=
  let mpi_rank := get_mpi_rank env world_comm
  let s := s.rank_query world_comm
  match read_options (calculate_argv options) Options.unread with
  | Except.error message => mdi_error message s
  | Except.ok o =>
    if o.has_role = 0 then
      mdi_error "Error in MDI_Init: -role option not provided" s
    else if o.has_name = 0 then
      mdi_error "Error in MDI_Init: -name option not provided" s
    else
      read_local o.language s fun language =>
      let do_split := get_do_split language
      let s := s.set_any_initialization
      match MDI_Init_establish env fuel o do_split mpi_rank s with
      | Outcome.ret _ s => MDI_Init_finish world_comm do_split s
      | Outcome.exit status s => Outcome.exit status s
      | Outcome.retrying => Outcome.retrying
      | Outcome.fault s => Outcome.fault s

/-! ## MDI_Send, MDI_Recv and the rank accessors -/

/-- Modelled from the spec: `Communicator::send` (`communicator.h`, not among the sources).
The transfer is a typed pass-through to the underlying transport with no side effect beyond
the I/O itself; a transport failure is fatal to the calling process. -/
def Communicator_send (env : Env) (comm : Communicator) (buf : List Int)
    (count datatype : Int) (s : State) : Outcome Unit :=
  let result := env.transfer_res (s.count Call.isTransfer)
  let s := s.call (Call.send comm buf count datatype)
  if result < 0 then Outcome.exit 1 s else Outcome.ret () s

/-- Modelled from the spec: `Communicator::recv` (`communicator.h`, not among the sources).
As `Communicator_send`; the values received are stored in the caller's buffer. -/
def Communicator_recv (env : Env) (comm : Communicator) (count datatype : Int) (s : State) :
    Outcome (List Int) :=
  let result := env.transfer_res (s.count Call.isTransfer)
  let buf := env.recv_data (s.count Call.isTransfer)
  let s := s.call (Call.recv comm count datatype)
  if result < 0 then Outcome.exit 1 s else Outcome.ret buf s

/-- `MDI_Send` (mdi.cpp, lines 593-603). -/
def MDI_Send (env : Env) (buf : List Int) (count datatype : Int) (comm : Int) (s : State) :
    Outcome Int :=
  let s :=
    if s.mpi_initialization = 1 ∧ s.intra_rank ≠ 0 then
      s.call (Call.perror "Called MDI_Send with incorrect rank")
    else s
  match s.communicator_of comm with
  | none => Outcome.fault s
  | some send_comm =>
    match Communicator_send env send_comm buf count datatype s with
    | Outcome.ret _ s => Outcome.ret 0 s
    | Outcome.exit status s => Outcome.exit status s
    | Outcome.retrying => Outcome.retrying
    | Outcome.fault s => Outcome.fault s

/-- `MDI_Recv` (mdi.cpp, lines 620-630); the result carries the returned `int` and the
contents of the caller's buffer on return. -/
def MDI_Recv (env : Env) (count datatype : Int) (comm : Int) (s : State) :
    Outcome (Int × List Int) :=
  let s :=
    if s.mpi_initialization = 1 ∧ s.intra_rank ≠ 0 then
      s.call (Call.perror "Called MDI_Recv with incorrect rank")
    else s
  match s.communicator_of comm with
  | none => Outcome.fault s
  | some recv_comm =>
    match Communicator_recv env recv_comm count datatype s with
    | Outcome.ret buf s => Outcome.ret (0, buf) s
    | Outcome.exit status s => Outcome.exit status s
    | Outcome.retrying => Outcome.retrying
    | Outcome.fault s => Outcome.fault s

/-- `MDI_Get_MPI_Code_Rank` (mdi.cpp, lines 698-701). -/
def MDI_Get_MPI_Code_Rank (s : State) : Int :=
  s.mpi_code_rank

/-- `MDI_Set_MPI_Intra_Rank` (mdi.cpp, lines 703-706). -/
def MDI_Set_MPI_Intra_Rank (rank : Int) (s : State) : State :=
  { s with intra_rank := rank }

/-! ## Specification-side notions used in the statements -/

/-- The tokens of an option string made of options, each followed by its argument. -/
def option_tokens : List (String × String) → List String
  | [] => []
  | p :: ps => p.1 :: p.2 :: option_tokens ps

/-- A required option is missing, in the words of the specification: the name or the role
in any configuration, the port for a driver with method TCP, the host name or the port for
an engine with method TCP. -/
def missing_required (o : Options) : Prop :=
  o.has_name = 0 ∨ o.has_role = 0
    ∨ (o.role = some "DRIVER" ∧ o.method = some "TCP" ∧ o.has_port = 0)
    ∨ (o.role = some "ENGINE" ∧ o.method = some "TCP" ∧ (o.has_hostname = 0 ∨ o.has_port = 0))

/-- Role and method form a recognised pair. -/
def recognised_pair (o : Options) : Prop :=
  (o.role = some "DRIVER" ∨ o.role = some "ENGINE")
    ∧ (o.method = some "MPI" ∨ o.method = some "TCP")

/-- Rank `i` is the first occurrence of a non-empty name: its name is not empty and no
earlier rank shares the identical name. Each such rank defines one distinct peer. -/
def first_occurrence_of_peer (names : List String) (i : Nat) : Bool :=
  decide (names.getD i "" ≠ "" ∧ ∀ j, j < i → names.getD j "" ≠ names.getD i "")

/-- The first-occurrence ranks of the distinct peers, in increasing order of rank. -/
def peer_ranks (names : List String) : List Nat :=
  (List.range names.length).filter (first_occurrence_of_peer names)

/-- The number of distinct peers whose first occurrence is at a rank below `i`. -/
def peers_before (names : List String) (i : Nat) : Nat :=
  ((List.range i).filter (first_occurrence_of_peer names)).length

/-- The peer-ordinal in the words of the specification: 0 for the empty name, and for a
non-empty name 1 plus the number of distinct non-empty names whose first occurrence is at a
lower global rank than the first occurrence of that name. -/
def peer_ordinal (names : List String) (name : String) : Int :=
  if name = "" then 0
  else 1 + ((names.dedup.filter
    (fun m => decide (m ≠ "" ∧ names.indexOf m < names.indexOf name))).length : Int)

/-- The `(color, key)` pair in the words of the specification, for rank `r`, driver rank
`d` and a peer whose first occurrence is rank `f`: the driver rank gets `(1, 0)`, the
peer's first-occurrence rank gets `(1, 1)`, every other rank `(0, 0)`. -/
def color_key (r d f : Nat) : Int × Int :=
  if r = d then (1, 0) else if r = f then (1, 1) else (0, 0)

/-- The state a call leaves behind, whether it returned, terminated the process or ran
into undefined behaviour; `none` while the connect loop is still retrying. -/
def Outcome.final_state {α : Type} : Outcome α → Option State
  | Outcome.ret _ s => some s
  | Outcome.exit _ s => some s
  | Outcome.retrying => none
  | Outcome.fault s => some s

/-- From `s` to `s'` the cursor is untouched and the registry is only appended to at the
end; the group-mode flag keeps its value or becomes 1. -/
def State.appends_only (s s' : State) : Prop :=
  s'.returned_comms = s.returned_comms
    ∧ s.communicators <+: s'.communicators
    ∧ (s'.mpi_initialization = s.mpi_initialization ∨ s'.mpi_initialization = 1)

/-- The states a process can reach from the initial state by calls of `MDI_Init` (first or
later), of the establishment functions, of `MDI_Accept_Communicator`, of `MDI_Send` and
`MDI_Recv`, and of `MDI_Set_MPI_Intra_Rank`, in any order and in any environment. -/
inductive Reachable : State → Prop where
  | initial : Reachable State.initial
  | init (env : Env) (fuel : Nat) (options : String) (world_comm : Option MPI_Comm)
      (s s' : State) (value : Int × Option MPI_Comm) :
      Reachable s → MDI_Init env fuel options world_comm s = Outcome.ret value s' →
      Reachable s'
  | listen (env : Env) (port : Int) (s : State) :
      Reachable s → Reachable (MDI_Listen_TCP env port s).2
  | request (env : Env) (fuel : Nat) (port : Int) (hostname_ptr : String) (s : State)
      (r : Int × State) :
      Reachable s → MDI_Request_Connection_TCP env fuel port hostname_ptr s = some r →
      Reachable r.2
  | gather (env : Env) (hostname_ptr : String) (do_split : Bool) (s : State) :
      Reachable s → Reachable (gather_names env hostname_ptr do_split s).2
  | accept (env : Env) (s s' : State) (comm : Int) :
      Reachable s → MDI_Accept_Communicator env s = Outcome.ret comm s' → Reachable s'
  | send (env : Env) (buf : List Int) (count datatype comm : Int) (s s' : State)
      (value : Int) :
      Reachable s → MDI_Send env buf count datatype comm s = Outcome.ret value s' →
      Reachable s'
  | recv (env : Env) (count datatype comm : Int) (s s' : State) (value : Int × List Int) :
      Reachable s → MDI_Recv env count datatype comm s = Outcome.ret value s' →
      Reachable s'
  | set_intra_rank (rank : Int) (s : State) :
      Reachable s → Reachable (MDI_Set_MPI_Intra_Rank rank s)

/-! ## Concrete environments and states -/

/-- An environment in which every system call succeeds: `socket` yields descriptor 3,
`accept` yields descriptor 4. -/
def env_ok : Env where
  socket_res := fun _ => 3
  setsockopt_res := fun _ => 0
  bind_res := fun _ => 0
  listen_res := fun _ => 0
  accept_res := fun _ => 4
  gethostbyname_res := fun _ => HostEnt.entry true
  connect_res := fun _ => ConnectResult.connected
  close_res := fun _ => 0
  names := ["", "A", "B", "A"]
  world_rank := 0
  mpi_rank := 0
  split_rank := fun _ _ => 0
  transfer_res := fun _ => 0
  recv_data := fun _ => []

/-- A registry with two established communicators, none handed off, no listener. -/
def state_two_established : State :=
  (State.initial.new_communicator (Communicator.CommunicatorTCP 5)).new_communicator
    (Communicator.CommunicatorTCP 6)

/-- As `env_ok`, except that `socket` yields descriptor 0, the lowest descriptor, which
a process started with its standard input closed receives. -/
def env_descriptor_zero : Env :=
  { env_ok with socket_res := fun _ => 0 }

/-- The state of a driver after a direct call `MDI_Listen_TCP(8021)` in a fresh process
stored descriptor 0. -/
def state_listening_on_zero : State :=
  (MDI_Listen_TCP env_descriptor_zero 8021 State.initial).2

/-- As `env_ok`, except that the first two `connect` calls are refused and every later one
succeeds; the `k`-th socket created has descriptor `3 + k`. -/
def env_two_refusals : Env :=
  { env_ok with
    socket_res := fun k => 3 + (k : Int)
    connect_res := fun k =>
      if k < 2 then ConnectResult.ECONNREFUSED else ConnectResult.connected }

/-- As `env_two_refusals`, except that the third `connect` call fails with another reason. -/
def env_two_refusals_then_error : Env :=
  { env_ok with
    socket_res := fun k => 3 + (k : Int)
    connect_res := fun k =>
      if k < 2 then ConnectResult.ECONNREFUSED else ConnectResult.other_errno }

/-- As `env_ok`, except that `socket` fails. -/
def env_socket_fails : Env :=
  { env_ok with socket_res := fun _ => -1 }

/-- As `env_ok`, except that the host name does not resolve. -/
def env_resolve_fails : Env :=
  { env_ok with gethostbyname_res := fun _ => HostEnt.null }

/-- What the reading loop yields for `-role DRIVER -method TCP -name driver _language C`. -/
def options_driver_tcp_no_port : Options where
  role := some "DRIVER"
  method := some "TCP"
  name := some "driver"
  hostname := none
  port := none
  language := some "C"
  has_role := 1
  has_method := 1
  has_name := 1
  has_hostname := 0
  has_port := 0

/-- As `env_ok` (gathered names "", "A", "B", "A"), seen from rank 3, whose name is "A". -/
def env_rank_three : Env :=
  { env_ok with world_rank := 3 }

/-- A process group in which no rank contributes the empty name: ranks 0 and 1 are the
engines "A" and "B"; seen from rank 0. -/
def env_no_driver : Env :=
  { env_ok with names := ["A", "B"], world_rank := 0 }

/-- The state of rank 0 of the group of `env_ok` after
`MDI_Init("-role DRIVER -method MPI -name driver _language C", &comm)`. -/
def state_after_group_init : State where
  any_initialization := 1
  mpi_initialization := 1
  intra_MPI_comm := MPI_Comm.split 2 0 0
  tcp_socket := -1
  world_rank := 0
  intra_rank := 0
  mpi_code_rank := 0
  driver_sockfd := 0
  communicators := [Communicator.CommunicatorMPI (MPI_Comm.split 0 1 0) 0,
    Communicator.CommunicatorMPI (MPI_Comm.split 1 1 0) 0]
  returned_comms := 0
  log := [Call.MPI_Comm_rank, Call.MPI_Comm_size, Call.MPI_Comm_rank, Call.MPI_Allgather "",
    Call.MPI_Comm_split 1 0, Call.MPI_Comm_split 1 0, Call.MPI_Comm_split 0 0,
    Call.MPI_Comm_rank, Call.MPI_Barrier]

/-- The state of an engine after `MDI_Request_Connection_TCP` connected at the first
attempt in `env_ok`: one socket communicator in the registry, none handed off. -/
def state_engine_connected : State :=
  { State.initial with
    any_initialization := 1
    communicators := [Communicator.CommunicatorTCP 3]
    log := [Call.gethostbyname "driver-host", Call.socket, Call.connect 3 8021] }

/-- What the reading loop yields for `-role ENGINE -method LINK -name MM _language C`. -/
def options_engine_link : Options where
  role := some "ENGINE"
  method := some "LINK"
  name := some "MM"
  hostname := none
  port := none
  language := some "C"
  has_role := 1
  has_method := 1
  has_name := 1
  has_hostname := 0
  has_port := 0

/-- As `env_ok` (contributed names "", "A", "B", "A"), seen from rank 1. -/
def env_rank_one : Env :=
  { env_ok with world_rank := 1 }

/-- The state of rank 1 of the group of `env_rank_one` after a call
`gather_names("A", true)` in a fresh process. -/
def state_after_engine_gather : State :=
  (gather_names env_rank_one "A" true State.initial).2

/-! ## Theorems -/

/-! ### Registry pull -/

theorem State.eta_returned_comms (s : State) :
    { s with returned_comms := s.returned_comms + ((0 : Nat) : Int) } = s := by
  cases s
  simp

/-- With no usable listening descriptor, `n + 1` pulls from a registry holding `n` entries
that were not handed off yet return the next `n` handles and then `MDI_NULL_COMM`. -/
theorem accept_calls_from (env : Env) (n : Nat) :
    ∀ s : State, s.tcp_socket ≤ 0 →
      s.returned_comms + (n : Int) = (s.communicators.length : Int) →
      accept_calls env (n + 1) s =
        Outcome.ret ((List.range n).map (fun k : Nat => s.returned_comms + (k : Int) + 1)
            ++ [MDI_NULL_COMM])
          { s with returned_comms := s.returned_comms + (n : Int) } := by
  induction n with
  | zero =>
    intro s hsock hlen
    have h1 : ¬ s.returned_comms < (s.communicators.length : Int) := by
      simp only [Nat.cast_zero, add_zero] at hlen
      omega
    have h2 : ¬ s.tcp_socket > 0 := by omega
    simp [accept_calls, MDI_Accept_Communicator, h1, h2, State.eta_returned_comms]
  | succ n ih =>
    intro s hsock hlen
    have h1 : s.returned_comms < (s.communicators.length : Int) := by
      push_cast at hlen
      omega
    have hstep : MDI_Accept_Communicator env s =
        Outcome.ret (s.returned_comms + 1)
          { s with returned_comms := s.returned_comms + 1 } := by
      simp [MDI_Accept_Communicator, h1]
    have hrec := ih { s with returned_comms := s.returned_comms + 1 } hsock
      (by push_cast at hlen; simp only; omega)
    rw [accept_calls, hstep]
    simp only [hrec]
    have hlist : (List.range (n + 1)).map (fun k : Nat => s.returned_comms + (k : Int) + 1) =
        (s.returned_comms + 1) ::
          (List.range n).map (fun k : Nat => s.returned_comms + 1 + (k : Int) + 1) := by
      rw [List.range_succ_eq_map, List.map_cons, List.map_map]
      simp only [Nat.cast_zero, add_zero, List.cons.injEq, true_and]
      apply List.map_congr_left
      intro k _
      simp only [Function.comp_apply, Nat.cast_succ]
      omega
    have hcur : s.returned_comms + 1 + (n : Int) = s.returned_comms + ((n + 1 : Nat) : Int) := by
      push_cast
      omega
    rw [hlist, hcur]
    rfl

/-- Claim C1. If `N` communicators were appended to the registry, none was handed off
(the cursor is zero) and no listening socket is active, then `N + 1` successive calls of
`MDI_Accept_Communicator` return the handles `1, 2, ..., N` in that order and then
`MDI_NULL_COMM`; the `k`-th handle designates the `k`-th established communicator, and the
registry itself is left as it was. -/
theorem accept_communicator_exhausts_registry (env : Env) (s : State)
    (hcursor : s.returned_comms = 0) (hlisten : s.tcp_socket < 0) :
    accept_calls env (s.communicators.length + 1) s =
        Outcome.ret ((List.range s.communicators.length).map (fun k : Nat => (k : Int) + 1)
            ++ [MDI_NULL_COMM])
          { s with returned_comms := (s.communicators.length : Int) }
      ∧ (∀ k : Nat, k < s.communicators.length →
          State.communicator_of { s with returned_comms := (s.communicators.length : Int) }
            ((k : Int) + 1) = s.communicators.get? k)
      ∧ MDI_NULL_COMM ∉ (List.range s.communicators.length).map (fun k : Nat => (k : Int) + 1) := by
  refine ⟨?_, ?_, ?_⟩
  · have h := accept_calls_from env s.communicators.length s (le_of_lt hlisten)
      (by rw [hcursor, zero_add])
    simpa [hcursor] using h
  · intro k _
    have h1 : (1 : Int) ≤ (k : Int) + 1 := by omega
    simp [State.communicator_of, h1]
  · simp only [List.mem_map, List.mem_range, not_exists, not_and, MDI_NULL_COMM]
    intro k _
    omega

theorem accept_communicator_exhausts_registry_witness :
    accept_calls env_ok 3 state_two_established =
      Outcome.ret [1, 2, MDI_NULL_COMM] { state_two_established with returned_comms := 2 } :=
  (accept_communicator_exhausts_registry env_ok state_two_established
    (by decide) (by decide)).1

/-- On a listening descriptor greater than zero, with every registry entry handed off, one
call performs one `accept` on that descriptor; when `accept` yields a connection, the
connection is appended to the registry and its handle, the new length, is returned. -/
theorem accept_communicator_on_listener (env : Env) (s : State)
    (hcursor : s.returned_comms = (s.communicators.length : Int)) (hlisten : 0 < s.tcp_socket)
    (haccept : 0 ≤ env.accept_res (s.count Call.isAccept)) :
    MDI_Accept_Communicator env s =
      Outcome.ret ((s.communicators.length : Int) + 1)
        { s with
          communicators := s.communicators ++
            [Communicator.CommunicatorTCP (env.accept_res (s.count Call.isAccept))]
          returned_comms := (s.communicators.length : Int) + 1
          log := s.log ++ [Call.accept s.tcp_socket] } := by
  have h1 : ¬ s.returned_comms < (s.communicators.length : Int) := by omega
  have h2 : s.tcp_socket > 0 := hlisten
  have h3 : ¬ env.accept_res (s.count Call.isAccept) < 0 := by omega
  simp [MDI_Accept_Communicator, h1, h2, h3, State.call, State.new_communicator, hcursor]

/-- Claim C2, evaluated where the code departs from it. In a process whose `socket` call
yields descriptor 0, `MDI_Listen_TCP(8021)` succeeds: it returns 0 and stores descriptor 0
as the listening handle. The first `MDI_Accept_Communicator` after it, with an empty
registry, performs no `accept`, appends nothing and returns `MDI_NULL_COMM` instead of
handle 1. The same happens when the listen is made by
`MDI_Init("-role DRIVER -method TCP -name driver -port 8021 _language C", NULL)`. -/
theorem accept_communicator_skips_descriptor_zero :
    MDI_Listen_TCP env_descriptor_zero 8021 State.initial = (0, state_listening_on_zero)
      ∧ state_listening_on_zero =
          { State.initial with
            tcp_socket := 0
            driver_sockfd := 0
            log := [Call.socket, Call.signal_SIGINT, Call.setsockopt 0, Call.bind 0 8021,
              Call.listen 0 20] }
      ∧ MDI_Accept_Communicator env_descriptor_zero state_listening_on_zero =
          Outcome.ret MDI_NULL_COMM state_listening_on_zero
      ∧ MDI_Init env_descriptor_zero 0
          "-role DRIVER -method TCP -name driver -port 8021 _language C" none State.initial =
          Outcome.ret (0, none) { state_listening_on_zero with any_initialization := 1 }
      ∧ MDI_Accept_Communicator env_descriptor_zero
          { state_listening_on_zero with any_initialization := 1 } =
          Outcome.ret MDI_NULL_COMM { state_listening_on_zero with any_initialization := 1 } := by
  decide

/-! ### Bookkeeping of the call record -/

@[simp] theorem State.count_call (s : State) (c : Call) (p : Call → Bool) :
    (s.call c).count p = s.count p + (if p c then 1 else 0) := by
  simp [State.count, State.call, List.countP_append, List.countP_cons]

@[simp] theorem State.communicators_call (s : State) (c : Call) :
    (s.call c).communicators = s.communicators := rfl

@[simp] theorem State.log_call (s : State) (c : Call) :
    (s.call c).log = s.log ++ [c] := rfl

@[simp] theorem State.count_new_communicator (s : State) (c : Communicator) (p : Call → Bool) :
    (s.new_communicator c).count p = s.count p := rfl

@[simp] theorem State.log_new_communicator (s : State) (c : Communicator) :
    (s.new_communicator c).log = s.log := rfl

@[simp] theorem State.communicators_new_communicator (s : State) (c : Communicator) :
    (s.new_communicator c).communicators = s.communicators ++ [c] := rfl

theorem State.count_set_any_initialization (s : State) (p : Call → Bool) :
    s.set_any_initialization.count p = s.count p := by
  unfold State.set_any_initialization
  split <;> rfl

theorem State.log_set_any_initialization (s : State) :
    s.set_any_initialization.log = s.log := by
  unfold State.set_any_initialization
  split <;> rfl

theorem State.communicators_set_any_initialization (s : State) :
    s.set_any_initialization.communicators = s.communicators := by
  unfold State.set_any_initialization
  split <;> rfl

theorem State.tcp_socket_set_any_initialization (s : State) :
    s.set_any_initialization.tcp_socket = s.tcp_socket := by
  unfold State.set_any_initialization
  split <;> rfl

theorem State.mpi_initialization_set_any_initialization (s : State) :
    s.set_any_initialization.mpi_initialization = s.mpi_initialization := by
  unfold State.set_any_initialization
  split <;> rfl

theorem State.log_rank_query (s : State) (world_comm : Option MPI_Comm) :
    (s.rank_query world_comm).log.filter Call.isTransport = s.log.filter Call.isTransport := by
  cases world_comm <;> simp [State.rank_query, State.call, List.filter_append, Call.isTransport]

theorem State.communicators_rank_query (s : State) (world_comm : Option MPI_Comm) :
    (s.rank_query world_comm).communicators = s.communicators := by
  cases world_comm <;> rfl

theorem State.tcp_socket_rank_query (s : State) (world_comm : Option MPI_Comm) :
    (s.rank_query world_comm).tcp_socket = s.tcp_socket := by
  cases world_comm <;> rfl

theorem State.mpi_initialization_rank_query (s : State) (world_comm : Option MPI_Comm) :
    (s.rank_query world_comm).mpi_initialization = s.mpi_initialization := by
  cases world_comm <;> rfl

/-! ### Connect with retry -/

/-- The retry loop after `N` refusals followed by a success. -/
theorem connect_loop_refused_then_connected (env : Env) (port : Int)
    (hsocket : ∀ k, 0 ≤ env.socket_res k) (hclose : ∀ k, 0 ≤ env.close_res k) (N : Nat) :
    ∀ (fuel : Nat) (sockfd : Int) (s : State), N + 1 ≤ fuel →
      (∀ i, i < N → env.connect_res (s.count Call.isConnect + i) = ConnectResult.ECONNREFUSED) →
      env.connect_res (s.count Call.isConnect + N) = ConnectResult.connected →
      ∃ s' : State, connect_loop env port fuel sockfd s = some (0, s')
        ∧ s'.count Call.isSocket = s.count Call.isSocket + N
        ∧ s'.count Call.isConnect = s.count Call.isConnect + N + 1
        ∧ s'.count Call.isClose = s.count Call.isClose + N
        ∧ s'.communicators = s.communicators ++ [Communicator.CommunicatorTCP
            (if N = 0 then sockfd else env.socket_res (s.count Call.isSocket + N - 1))]
        ∧ s'.log.getLast? = some (Call.connect
            (if N = 0 then sockfd else env.socket_res (s.count Call.isSocket + N - 1)) port)
        ∧ s'.tcp_socket = s.tcp_socket ∧ s'.returned_comms = s.returned_comms
        ∧ s'.any_initialization = s.any_initialization := by
  induction N with
  | zero =>
    intro fuel sockfd s hfuel _ hlast
    cases fuel with
    | zero => omega
    | succ fuel =>
      simp only [add_zero] at hlast
      refine ⟨(s.call (Call.connect sockfd port)).new_communicator
        (Communicator.CommunicatorTCP sockfd), ?_⟩
      simp [connect_loop, hlast, Call.isSocket, Call.isConnect, Call.isClose]
      simp [State.call, State.new_communicator]
  | succ N ih =>
    intro fuel sockfd s hfuel hrefused hlast
    cases fuel with
    | zero => omega
    | succ fuel =>
      have h0 := hrefused 0 (by omega)
      simp only [add_zero] at h0
      have hc := hclose ((s.call (Call.connect sockfd port)).count Call.isClose)
      have hs := hsocket (((s.call (Call.connect sockfd port)).call (Call.close sockfd)).count
        Call.isSocket)
      obtain ⟨s', hrun, h1, h2, h3, h4, h5, h6, h7, h8⟩ := ih fuel
        (env.socket_res (((s.call (Call.connect sockfd port)).call (Call.close sockfd)).count
          Call.isSocket))
        (((s.call (Call.connect sockfd port)).call (Call.close sockfd)).call Call.socket)
        (by omega)
        (by
          intro i hi
          have := hrefused (i + 1) (by omega)
          simpa [Call.isConnect, add_assoc, add_comm 1 i] using this)
        (by simpa [Call.isConnect, add_assoc, add_comm 1 N] using hlast)
      refine ⟨s', ?_, ?_, ?_, ?_, ?_, ?_, ?_, ?_, ?_⟩
      · rw [connect_loop]
        simp only [h0]
        simp only [not_lt.mpr hc, not_lt.mpr hs, if_false]
        exact hrun
      · simp [Call.isSocket] at h1; omega
      · simp [Call.isConnect] at h2; omega
      · simp [Call.isClose] at h3; omega
      · rw [h4]
        simp [Call.isSocket]
        by_cases hN : N = 0
        · simp [hN]
        · simp [hN]
      · rw [h5]
        simp [Call.isSocket]
        by_cases hN : N = 0
        · simp [hN]
        · simp [hN]
      · simpa [State.call] using h6
      · simpa [State.call] using h7
      · simpa [State.call] using h8

/-- The retry loop after `N` refusals followed by a failure other than a refusal. -/
theorem connect_loop_refused_then_error (env : Env) (port : Int)
    (hsocket : ∀ k, 0 ≤ env.socket_res k) (hclose : ∀ k, 0 ≤ env.close_res k) (N : Nat) :
    ∀ (fuel : Nat) (sockfd : Int) (s : State), N + 1 ≤ fuel →
      (∀ i, i < N → env.connect_res (s.count Call.isConnect + i) = ConnectResult.ECONNREFUSED) →
      env.connect_res (s.count Call.isConnect + N) = ConnectResult.other_errno →
      ∃ s' : State, connect_loop env port fuel sockfd s = some (-1, s')
        ∧ s'.count Call.isSocket = s.count Call.isSocket + N
        ∧ s'.count Call.isConnect = s.count Call.isConnect + N + 1
        ∧ s'.communicators = s.communicators
        ∧ s'.tcp_socket = s.tcp_socket ∧ s'.returned_comms = s.returned_comms := by
  induction N with
  | zero =>
    intro fuel sockfd s hfuel _ hlast
    cases fuel with
    | zero => omega
    | succ fuel =>
      simp only [add_zero] at hlast
      refine ⟨(s.call (Call.connect sockfd port)).call
        (Call.perror "Could not connect to the driver"), ?_⟩
      simp [connect_loop, hlast, Call.isSocket, Call.isConnect]
      simp [State.call]
  | succ N ih =>
    intro fuel sockfd s hfuel hrefused hlast
    cases fuel with
    | zero => omega
    | succ fuel =>
      have h0 := hrefused 0 (by omega)
      simp only [add_zero] at h0
      have hc := hclose ((s.call (Call.connect sockfd port)).count Call.isClose)
      have hs := hsocket (((s.call (Call.connect sockfd port)).call (Call.close sockfd)).count
        Call.isSocket)
      obtain ⟨s', hrun, h1, h2, h3, h4, h5⟩ := ih fuel
        (env.socket_res (((s.call (Call.connect sockfd port)).call (Call.close sockfd)).count
          Call.isSocket))
        (((s.call (Call.connect sockfd port)).call (Call.close sockfd)).call Call.socket)
        (by omega)
        (by
          intro i hi
          have := hrefused (i + 1) (by omega)
          simpa [Call.isConnect, add_assoc, add_comm 1 i] using this)
        (by simpa [Call.isConnect, add_assoc, add_comm 1 N] using hlast)
      refine ⟨s', ?_, ?_, ?_, ?_, ?_, ?_⟩
      · rw [connect_loop]
        simp only [h0]
        simp only [not_lt.mpr hc, not_lt.mpr hs, if_false]
        exact hrun
      · simp [Call.isSocket] at h1; omega
      · simp [Call.isConnect] at h2; omega
      · simpa using h3
      · simpa [State.call] using h4
      · simpa [State.call] using h5

/-- Claim C4. With host resolution, socket creation and socket close succeeding, let the
first `N` connect attempts be refused. If attempt `N + 1` succeeds, then
`MDI_Request_Connection_TCP` returns 0 after exactly `N + 1` socket creations and `N + 1`
connect attempts, the last attempt being made on the socket created last, and that socket
is wrapped in the one communicator appended to the registry. If attempt `N + 1` fails with
another reason, the function returns -1 after exactly `N + 1` socket creations and `N + 1`
connect attempts and the registry is unchanged. -/
theorem request_connection_retry (env : Env) (port : Int) (hostname_ptr : String) (s : State)
    (fuel N : Nat)
    (hhost : env.gethostbyname_res (s.count Call.isGethostbyname) = HostEnt.entry true)
    (hsocket : ∀ k, 0 ≤ env.socket_res k) (hclose : ∀ k, 0 ≤ env.close_res k)
    (hfuel : N + 1 ≤ fuel)
    (hrefused : ∀ i, i < N →
      env.connect_res (s.count Call.isConnect + i) = ConnectResult.ECONNREFUSED) :
    (env.connect_res (s.count Call.isConnect + N) = ConnectResult.connected →
      ∃ s' : State, MDI_Request_Connection_TCP env fuel port hostname_ptr s = some (0, s')
        ∧ s'.count Call.isSocket = s.count Call.isSocket + (N + 1)
        ∧ s'.count Call.isConnect = s.count Call.isConnect + (N + 1)
        ∧ s'.communicators = s.communicators ++
            [Communicator.CommunicatorTCP (env.socket_res (s.count Call.isSocket + N))]
        ∧ s'.log.getLast? =
            some (Call.connect (env.socket_res (s.count Call.isSocket + N)) port))
    ∧ (env.connect_res (s.count Call.isConnect + N) = ConnectResult.other_errno →
      ∃ s' : State, MDI_Request_Connection_TCP env fuel port hostname_ptr s = some (-1, s')
        ∧ s'.count Call.isSocket = s.count Call.isSocket + (N + 1)
        ∧ s'.count Call.isConnect = s.count Call.isConnect + (N + 1)
        ∧ s'.communicators = s.communicators) := by
  have hcount : ∀ p : Call → Bool, s.set_any_initialization.count p = s.count p :=
    State.count_set_any_initialization s
  have hcomm : s.set_any_initialization.communicators = s.communicators :=
    State.communicators_set_any_initialization s
  have hs0 := hsocket (s.count Call.isSocket)
  constructor
  · intro hlast
    obtain ⟨s', hrun, h1, h2, _, h4, h5, _⟩ :=
      connect_loop_refused_then_connected env port hsocket hclose N fuel
        (env.socket_res (s.count Call.isSocket))
        ((s.set_any_initialization.call (Call.gethostbyname hostname_ptr)).call Call.socket)
        hfuel
        (by simpa [Call.isConnect, hcount] using hrefused)
        (by simpa [Call.isConnect, hcount] using hlast)
    refine ⟨s', ?_, ?_, ?_, ?_, ?_⟩
    · simp only [MDI_Request_Connection_TCP, hcount, hhost, State.count_call, Call.isSocket,
        Call.isGethostbyname]
      simpa [not_lt.mpr hs0, hcount, Call.isSocket] using hrun
    · simp [Call.isSocket, hcount] at h1; omega
    · simp [Call.isConnect, hcount] at h2; omega
    · rw [h4]
      simp only [State.communicators_call, hcomm, State.count_call, hcount, Call.isSocket]
      by_cases hN : N = 0
      · simp [hN]
      · simp [hN, add_assoc, add_comm 1 N]
    · rw [h5]
      simp only [State.count_call, hcount, Call.isSocket]
      by_cases hN : N = 0
      · simp [hN]
      · simp [hN, add_assoc, add_comm 1 N]
  · intro hlast
    obtain ⟨s', hrun, h1, h2, h3, _⟩ :=
      connect_loop_refused_then_error env port hsocket hclose N fuel
        (env.socket_res (s.count Call.isSocket))
        ((s.set_any_initialization.call (Call.gethostbyname hostname_ptr)).call Call.socket)
        hfuel
        (by simpa [Call.isConnect, hcount] using hrefused)
        (by simpa [Call.isConnect, hcount] using hlast)
    refine ⟨s', ?_, ?_, ?_, ?_⟩
    · simp only [MDI_Request_Connection_TCP, hcount, hhost, State.count_call, Call.isSocket,
        Call.isGethostbyname]
      simpa [not_lt.mpr hs0, hcount, Call.isSocket] using hrun
    · simp [Call.isSocket, hcount] at h1; omega
    · simp [Call.isConnect, hcount] at h2; omega
    · simpa [hcomm] using h3

theorem request_connection_retry_witness :
    (∃ s' : State,
      MDI_Request_Connection_TCP env_two_refusals 3 8021 "driver-host" State.initial = some (0, s')
        ∧ s'.count Call.isSocket = State.initial.count Call.isSocket + (2 + 1)
        ∧ s'.count Call.isConnect = State.initial.count Call.isConnect + (2 + 1)
        ∧ s'.communicators = State.initial.communicators ++
            [Communicator.CommunicatorTCP
              (env_two_refusals.socket_res (State.initial.count Call.isSocket + 2))]
        ∧ s'.log.getLast? = some (Call.connect
            (env_two_refusals.socket_res (State.initial.count Call.isSocket + 2)) 8021))
    ∧ (∃ s' : State,
      MDI_Request_Connection_TCP env_two_refusals_then_error 3 8021 "driver-host" State.initial
          = some (-1, s')
        ∧ s'.count Call.isSocket = State.initial.count Call.isSocket + (2 + 1)
        ∧ s'.count Call.isConnect = State.initial.count Call.isConnect + (2 + 1)
        ∧ s'.communicators = State.initial.communicators) :=
  ⟨(request_connection_retry env_two_refusals 8021 "driver-host" State.initial 3 2 rfl
      (fun k => by simp only [env_two_refusals]; omega)
      (fun _ => by simp [env_two_refusals, env_ok]) (by decide)
      (fun i hi => by simp [env_two_refusals, State.count, State.initial, hi])).1 rfl,
   (request_connection_retry env_two_refusals_then_error 8021 "driver-host" State.initial 3 2
      rfl (fun k => by simp only [env_two_refusals_then_error]; omega)
      (fun _ => by simp [env_two_refusals_then_error, env_ok]) (by decide)
      (fun i hi => by simp [env_two_refusals_then_error, State.count, State.initial, hi])).2
      rfl⟩

/-! ### Configuration errors -/

/-- The dispatch reports an error and terminates when the port of a driver with method TCP,
or the host name or port of an engine with method TCP, is missing. -/
theorem MDI_Init_establish_missing (env : Env) (fuel : Nat) (o : Options) (do_split : Bool)
    (mpi_rank : Int) (s : State)
    (h : (o.role = some "DRIVER" ∧ o.method = some "TCP" ∧ o.has_port = 0)
      ∨ (o.role = some "ENGINE" ∧ o.method = some "TCP"
        ∧ (o.has_hostname = 0 ∨ o.has_port = 0))) :
    ∃ message : String,
      MDI_Init_establish env fuel o do_split mpi_rank s =
        Outcome.exit 1 (s.call (Call.perror message)) := by
  rcases h with ⟨h1, h2, h3⟩ | ⟨h1, h2, h3⟩
  · exact ⟨"Error in MDI_Init: -port option not provided",
      by simp [MDI_Init_establish, read_local, h1, h2, h3, mdi_error]⟩
  · by_cases hhost : o.has_hostname = 0
    · exact ⟨"Error in MDI_Init: -hostname option not provided",
        by simp [MDI_Init_establish, read_local, h1, h2, hhost, mdi_error]⟩
    · have hport : o.has_port = 0 := by
        rcases h3 with h | h
        · exact absurd h hhost
        · exact h
      exact ⟨"Error in MDI_Init: -port option not provided",
        by simp [MDI_Init_establish, read_local, h1, h2, hhost, hport, mdi_error]⟩

/-- The dispatch does not terminate the process when role and method are a recognised
pair and the options that pair requires are present. -/
theorem MDI_Init_establish_no_exit (env : Env) (fuel : Nat) (o : Options) (do_split : Bool)
    (mpi_rank : Int) (s : State) (hpair : recognised_pair o)
    (hdriver : o.role = some "DRIVER" → o.method = some "TCP" → ¬ o.has_port = 0)
    (hengine : o.role = some "ENGINE" → o.method = some "TCP" →
      ¬ (o.has_hostname = 0 ∨ o.has_port = 0))
    (status : Int) (s' : State) :
    MDI_Init_establish env fuel o do_split mpi_rank s ≠ Outcome.exit status s' := by
  obtain ⟨hr, hm⟩ := hpair
  rcases hr with hr | hr <;> rcases hm with hm | hm
  · simp [MDI_Init_establish, read_local, hr, hm]
  · have hp : ¬ o.has_port = 0 := hdriver hr hm
    by_cases h0 : mpi_rank = 0
    · cases hport : o.port <;> simp [MDI_Init_establish, read_local, hr, hm, hp, h0, hport]
    · simp [MDI_Init_establish, read_local, hr, hm, hp, h0]
  · cases hnm : o.name <;> simp [MDI_Init_establish, read_local, hr, hm, hnm]
  · have hh : ¬ o.has_hostname = 0 := fun h => hengine hr hm (Or.inl h)
    have hp : ¬ o.has_port = 0 := fun h => hengine hr hm (Or.inr h)
    by_cases h0 : mpi_rank = 0
    · cases hport : o.port with
      | none => simp [MDI_Init_establish, read_local, hr, hm, hh, hp, h0, hport]
      | some port =>
        cases hhost : o.hostname with
        | none => simp [MDI_Init_establish, read_local, hr, hm, hh, hp, h0, hport, hhost]
        | some hostname =>
          cases hreq : MDI_Request_Connection_TCP env fuel port hostname s <;>
            simp [MDI_Init_establish, read_local, hr, hm, hh, hp, h0, hport, hhost, hreq]
    · simp [MDI_Init_establish, read_local, hr, hm, hh, hp, h0]

/-- `MDI_Init_finish` never terminates the process with `exit`. -/
theorem MDI_Init_finish_no_exit (world_comm : Option MPI_Comm) (do_split : Bool) (s : State)
    (status : Int) (s' : State) :
    MDI_Init_finish world_comm do_split s ≠ Outcome.exit status s' := by
  unfold MDI_Init_finish
  split
  · split
    · split <;> simp
    · simp
  · simp

/-- Configuration errors of `MDI_Init`, for every option string that the reading loop
accepts. When the name or the role is missing, or when `language` was assigned and the port
of a driver with method TCP, or the host name or port of an engine with method TCP, is
missing, `MDI_Init` terminates the process with status 1 after reporting an error, having
made no transport call, added no communicator and stored no listening descriptor. When
nothing is missing and role and method form a recognised pair, `MDI_Init` does not
terminate the process. When role and name are present and `language` was never assigned,
the read of `language` at line 469 is undefined. -/
theorem MDI_Init_config_error (env : Env) (fuel : Nat) (options : String)
    (world_comm : Option MPI_Comm) (s : State) (o : Options)
    (hparse : read_options (calculate_argv options) Options.unread = Except.ok o) :
    ((o.has_name = 0 ∨ o.has_role = 0) ∨ (o.language ≠ none ∧ missing_required o) →
      ∃ (s' : State) (message : String),
        MDI_Init env fuel options world_comm s = Outcome.exit 1 s'
          ∧ s'.log.getLast? = some (Call.perror message)
          ∧ s'.log.filter Call.isTransport = s.log.filter Call.isTransport
          ∧ s'.communicators = s.communicators
          ∧ s'.tcp_socket = s.tcp_socket
          ∧ s'.mpi_initialization = s.mpi_initialization)
    ∧ (¬ missing_required o → recognised_pair o →
      ∀ (status : Int) (s' : State),
        MDI_Init env fuel options world_comm s ≠ Outcome.exit status s')
    ∧ (o.has_role ≠ 0 → o.has_name ≠ 0 → o.language = none →
      MDI_Init env fuel options world_comm s = Outcome.fault (s.rank_query world_comm)) := by
  have hfrom : ∀ (s0 : State) (message : String),
      s0.log.filter Call.isTransport = s.log.filter Call.isTransport →
      s0.communicators = s.communicators → s0.tcp_socket = s.tcp_socket →
      s0.mpi_initialization = s.mpi_initialization →
      MDI_Init env fuel options world_comm s = Outcome.exit 1 (s0.call (Call.perror message)) →
      ∃ (s' : State) (message : String),
        MDI_Init env fuel options world_comm s = Outcome.exit 1 s'
          ∧ s'.log.getLast? = some (Call.perror message)
          ∧ s'.log.filter Call.isTransport = s.log.filter Call.isTransport
          ∧ s'.communicators = s.communicators
          ∧ s'.tcp_socket = s.tcp_socket
          ∧ s'.mpi_initialization = s.mpi_initialization := by
    intro s0 message h1 h2 h3 h4 hrun
    refine ⟨s0.call (Call.perror message), message, hrun, ?_, ?_, ?_, ?_, ?_⟩
    · simp [State.call]
    · simp [State.call, List.filter_append, Call.isTransport, h1]
    · simpa [State.call] using h2
    · simpa [State.call] using h3
    · simpa [State.call] using h4
  refine ⟨?_, ?_, ?_⟩
  · intro hmiss
    by_cases hrole : o.has_role = 0
    · exact hfrom (s.rank_query world_comm) "Error in MDI_Init: -role option not provided"
        (State.log_rank_query s world_comm)
        (State.communicators_rank_query s world_comm) (State.tcp_socket_rank_query s world_comm)
        (State.mpi_initialization_rank_query s world_comm)
        (by simp [MDI_Init, hparse, hrole, mdi_error])
    by_cases hname : o.has_name = 0
    · exact hfrom (s.rank_query world_comm) "Error in MDI_Init: -name option not provided"
        (State.log_rank_query s world_comm)
        (State.communicators_rank_query s world_comm) (State.tcp_socket_rank_query s world_comm)
        (State.mpi_initialization_rank_query s world_comm)
        (by simp [MDI_Init, hparse, hrole, hname, mdi_error])
    have hboth : o.language ≠ none ∧ missing_required o := by
      rcases hmiss with h | h
      · rcases h with h | h
        · exact absurd h hname
        · exact absurd h hrole
      · exact h
    obtain ⟨hlang, hreq⟩ := hboth
    obtain ⟨language, hl⟩ := Option.ne_none_iff_exists'.mp hlang
    have hrest : (o.role = some "DRIVER" ∧ o.method = some "TCP" ∧ o.has_port = 0)
        ∨ (o.role = some "ENGINE" ∧ o.method = some "TCP"
          ∧ (o.has_hostname = 0 ∨ o.has_port = 0)) := by
      rcases hreq with h | h | h | h
      · exact absurd h hname
      · exact absurd h hrole
      · exact Or.inl h
      · exact Or.inr h
    obtain ⟨message, hrun⟩ := MDI_Init_establish_missing env fuel o (get_do_split language)
      (get_mpi_rank env world_comm) (s.rank_query world_comm).set_any_initialization hrest
    exact hfrom (s.rank_query world_comm).set_any_initialization message
      (by rw [State.log_set_any_initialization, State.log_rank_query])
      (by rw [State.communicators_set_any_initialization, State.communicators_rank_query])
      (by rw [State.tcp_socket_set_any_initialization, State.tcp_socket_rank_query])
      (by rw [State.mpi_initialization_set_any_initialization,
        State.mpi_initialization_rank_query])
      (by simp [MDI_Init, hparse, hrole, hname, hl, read_local, hrun])
  · intro hmiss hpair status s'
    simp only [missing_required, not_or] at hmiss
    obtain ⟨hname, hrole, hdriver, hengine⟩ := hmiss
    cases hl : o.language with
    | none => simp [MDI_Init, hparse, hrole, hname, hl, read_local]
    | some language =>
      have hne := MDI_Init_establish_no_exit env fuel o (get_do_split language)
        (get_mpi_rank env world_comm) (s.rank_query world_comm).set_any_initialization hpair
        (fun h1 h2 h3 => hdriver ⟨h1, h2, h3⟩) (fun h1 h2 h3 => hengine ⟨h1, h2, h3⟩)
      simp only [MDI_Init, hparse, hrole, hname, if_false, hl, read_local]
      split
      · exact MDI_Init_finish_no_exit _ _ _ _ _
      · rename_i heq
        exact absurd heq (hne _ _)
      · simp
      · simp
  · intro hrole hname hl
    simp [MDI_Init, hparse, hrole, hname, hl, read_local]

/-- Claim C5, evaluated where the code departs from it. With `-role` and `-name` given, a
required `-port` or `-hostname` missing and no `_language` option, `MDI_Init` reads its
local `language`, which was never assigned, in the test that sets `do_split` (mdi.cpp, line
469), before it reaches the checks for `-port` and `-hostname`: the call is undefined,
where the claim has it end in a configuration error. With `_language C` added the same
calls report the missing option and exit with status 1, and a missing `-name` is reported
before `language` is read. -/
theorem MDI_Init_missing_option_reads_unassigned_language :
    MDI_Init env_ok 0 "-role DRIVER -method TCP -name driver" none State.initial =
      Outcome.fault State.initial
    ∧ MDI_Init env_ok 0 "-role ENGINE -method TCP -name MM -port 8021" none State.initial =
      Outcome.fault State.initial
    ∧ MDI_Init env_ok 0 "-role ENGINE -method TCP -name MM -hostname h" none State.initial =
      Outcome.fault State.initial
    ∧ (read_options (calculate_argv "-role DRIVER -method TCP -name driver")
        Options.unread).toOption = some { options_driver_tcp_no_port with language := none }
    ∧ MDI_Init env_ok 0 "-role DRIVER -method TCP -name driver _language C" none
        State.initial =
      Outcome.exit 1
        { State.initial with
          any_initialization := 1
          log := [Call.perror "Error in MDI_Init: -port option not provided"] }
    ∧ MDI_Init env_ok 0 "-role ENGINE -method TCP -name MM -port 8021 _language C" none
        State.initial =
      Outcome.exit 1
        { State.initial with
          any_initialization := 1
          log := [Call.perror "Error in MDI_Init: -hostname option not provided"] }
    ∧ MDI_Init env_ok 0 "-role DRIVER -method TCP -port 8021" none State.initial =
      Outcome.exit 1
        { State.initial with
          log := [Call.perror "Error in MDI_Init: -name option not provided"] } := by
  decide

/-! ### Return value of MDI_Init -/

/-- Whenever `MDI_Init` returns, it returns 0. -/
theorem MDI_Init_returns_zero (env : Env) (fuel : Nat) (options : String)
    (world_comm : Option MPI_Comm) (s s' : State) (r : Int) (wc : Option MPI_Comm)
    (h : MDI_Init env fuel options world_comm s = Outcome.ret (r, wc) s') : r = 0 := by
  unfold MDI_Init at h
  dsimp only at h
  cases hparse : read_options (calculate_argv options) Options.unread with
  | error message => simp [hparse, mdi_error] at h
  | ok o =>
    simp only [hparse] at h
    by_cases hrole : o.has_role = 0
    · simp [hrole, mdi_error] at h
    by_cases hname : o.has_name = 0
    · simp [hrole, hname, mdi_error] at h
    cases hl : o.language with
    | none => simp [hrole, hname, hl, read_local] at h
    | some language =>
      simp only [if_neg hrole, if_neg hname, hl, read_local] at h
      split at h
      · unfold MDI_Init_finish at h
        split at h
        · split at h
          · split at h
            · simp at h
            · simp only [Outcome.ret.injEq, Prod.mk.injEq] at h
              exact h.1.1.symm
          · simp only [Outcome.ret.injEq, Prod.mk.injEq] at h
            exact h.1.1.symm
        · simp only [Outcome.ret.injEq, Prod.mk.injEq] at h
          exact h.1.1.symm
      · simp at h
      · simp at h
      · simp at h

/-- Claim C7, evaluated where the code departs from it. For a driver with method TCP whose
`socket` call fails, and for an engine with method TCP whose host name does not resolve,
`MDI_Init` reports the failure and still returns 0; no listening descriptor is stored and
no communicator is added. -/
theorem MDI_Init_returns_zero_on_transport_failure :
    MDI_Init env_socket_fails 0 "-role DRIVER -method TCP -name driver -port 8021 _language C"
        none State.initial =
      Outcome.ret (0, none)
        { State.initial with
          any_initialization := 1
          log := [Call.socket, Call.perror "Could not create socket"] }
    ∧ MDI_Listen_TCP env_socket_fails 8021 { State.initial with any_initialization := 1 } =
      (-1, { State.initial with
          any_initialization := 1
          log := [Call.socket, Call.perror "Could not create socket"] })
    ∧ MDI_Init env_resolve_fails 1
        "-role ENGINE -method TCP -name MM -hostname h -port 8021 _language C" none
        State.initial =
      Outcome.ret (0, none)
        { State.initial with
          any_initialization := 1
          log := [Call.gethostbyname "h", Call.perror "Error in gethostbyname"] }
    ∧ MDI_Request_Connection_TCP env_resolve_fails 1 8021 "h"
        { State.initial with any_initialization := 1 } =
      some (-1, { State.initial with
          any_initialization := 1
          log := [Call.gethostbyname "h", Call.perror "Error in gethostbyname"] }) := by
  decide

/-! ### The option driver_name -/

/-- Every option string whose tokens contain an option name outside `known_options` in an
option position is refused: here, any token list that starts with `-driver_name`. -/
theorem read_options_driver_name (rest : List String) (o : Options) :
    read_options ("-driver_name" :: rest) o = Except.error "Unrecognized option" := by
  cases rest with
  | nil => simp [read_options]
  | cons value rest => simp [read_options]

/-- The counterexample to claim C9 as stated. The call of the engine test,
`MDI_Init("-role ENGINE -method LINK -name MM -driver_name driver", &mpi_world_comm)`, does
not return 0: the reading loop meets `-driver_name`, reports "Unrecognized option" and
terminates the process with status 1. Likewise the option string
`-role ENGINE -method LINK -name MM _language C` is accepted, `MDI_Init` returning 0, and
the same string with `-driver_name driver` added is not. -/
theorem MDI_Init_rejects_driver_name :
    MDI_Init env_ok 0 "-role ENGINE -method LINK -name MM -driver_name driver"
        (some MPI_Comm.MPI_COMM_WORLD) State.initial =
      Outcome.exit 1
        { State.initial with
          log := [Call.MPI_Comm_rank, Call.perror "Unrecognized option"] }
    ∧ (MDI_Init env_ok 0 "-role ENGINE -method LINK -name MM -driver_name driver"
        (some MPI_Comm.MPI_COMM_WORLD) State.initial).returned = none
    ∧ (MDI_Init env_ok 0 "-role ENGINE -method LINK -name MM _language C"
        (some MPI_Comm.MPI_COMM_WORLD) State.initial).returned =
      some (0, some MPI_Comm.MPI_COMM_WORLD)
    ∧ MDI_Init env_ok 0 "-role ENGINE -method LINK -name MM _language C -driver_name driver"
        (some MPI_Comm.MPI_COMM_WORLD) State.initial =
      Outcome.exit 1
        { State.initial with
          log := [Call.MPI_Comm_rank, Call.perror "Unrecognized option"] } := by
  decide

/-- The reading loop consumes options it knows, each with its argument, and goes on with
the tokens that follow. -/
theorem read_options_known_pairs (pairs : List (String × String))
    (hknown : ∀ p, p ∈ pairs → p.1 ∈ known_options) :
    ∀ o : Options, ∃ o' : Options, ∀ rest : List String,
      read_options (option_tokens pairs ++ rest) o = read_options rest o' := by
  induction pairs with
  | nil =>
    intro o
    exact ⟨o, fun rest => rfl⟩
  | cons p ps ih =>
    intro o
    have hp : p.1 ∈ known_options := hknown p (List.mem_cons_self p ps)
    have ih' := ih (fun q hq => hknown q (List.mem_cons_of_mem p hq))
    simp only [known_options, List.mem_cons, List.mem_singleton, List.not_mem_nil,
      or_false] at hp
    rcases hp with hp | hp | hp | hp | hp | hp
    · obtain ⟨o', ho'⟩ := ih' { o with role := some p.2, has_role := 1 }
      exact ⟨o', fun rest => by simp [option_tokens, read_options, hp, ho']⟩
    · obtain ⟨o', ho'⟩ := ih' { o with method := some p.2, has_method := 1 }
      exact ⟨o', fun rest => by simp [option_tokens, read_options, hp, ho']⟩
    · obtain ⟨o', ho'⟩ := ih' { o with name := some p.2, has_name := 1 }
      exact ⟨o', fun rest => by simp [option_tokens, read_options, hp, ho']⟩
    · obtain ⟨o', ho'⟩ := ih' { o with hostname := some p.2, has_hostname := 1 }
      exact ⟨o', fun rest => by simp [option_tokens, read_options, hp, ho']⟩
    · obtain ⟨o', ho'⟩ := ih' { o with port := some (strtol_int p.2), has_port := 1 }
      exact ⟨o', fun rest => by simp [option_tokens, read_options, hp, ho']⟩
    · obtain ⟨o', ho'⟩ := ih' { o with language := some p.2 }
      exact ⟨o', fun rest => by simp [option_tokens, read_options, hp, ho']⟩

/-- Claim C9, as amended. `-driver_name` is not an accepted option. For every option
string whose tokens are options the reading loop knows (`-role`, `-method`, `-name`,
`-hostname`, `-port`, `_language`), each followed by its argument, and then `-driver_name`,
with or without further tokens, `MDI_Init` reports "Unrecognized option" and terminates the
process with status 1: it does not return, makes no transport call and adds no
communicator. -/
theorem MDI_Init_refuses_driver_name (env : Env) (fuel : Nat) (options : String)
    (world_comm : Option MPI_Comm) (s : State) (pairs : List (String × String))
    (rest : List String) (hknown : ∀ p, p ∈ pairs → p.1 ∈ known_options)
    (hargv : calculate_argv options = option_tokens pairs ++ "-driver_name" :: rest) :
    MDI_Init env fuel options world_comm s =
        Outcome.exit 1 ((s.rank_query world_comm).call (Call.perror "Unrecognized option"))
    ∧ (MDI_Init env fuel options world_comm s).returned = none
    ∧ ((s.rank_query world_comm).call (Call.perror "Unrecognized option")).log.filter
        Call.isTransport = s.log.filter Call.isTransport
    ∧ ((s.rank_query world_comm).call (Call.perror "Unrecognized option")).communicators =
        s.communicators := by
  obtain ⟨o', ho'⟩ := read_options_known_pairs pairs hknown Options.unread
  have hread : read_options (calculate_argv options) Options.unread =
      Except.error "Unrecognized option" := by
    rw [hargv, ho', read_options_driver_name]
  have hrun : MDI_Init env fuel options world_comm s =
      Outcome.exit 1 ((s.rank_query world_comm).call (Call.perror "Unrecognized option")) := by
    simp [MDI_Init, hread, mdi_error]
  refine ⟨hrun, ?_, ?_, ?_⟩
  · rw [hrun]
    rfl
  · rw [State.log_call, List.filter_append, State.log_rank_query]
    simp [Call.isTransport]
  · rw [State.communicators_call, State.communicators_rank_query]

theorem MDI_Init_refuses_driver_name_witness :
    MDI_Init env_ok 0 "-role DRIVER -method TCP -name driver -driver_name driver -port 8021"
        none State.initial =
      Outcome.exit 1 ((State.initial.rank_query none).call (Call.perror "Unrecognized option"))
    ∧ (MDI_Init env_ok 0 "-role DRIVER -method TCP -name driver -driver_name driver -port 8021"
        none State.initial).returned = none :=
  ⟨(MDI_Init_refuses_driver_name env_ok 0
      "-role DRIVER -method TCP -name driver -driver_name driver -port 8021" none State.initial
      [("-role", "DRIVER"), ("-method", "TCP"), ("-name", "driver")] ["driver", "-port", "8021"]
      (by decide) (by decide)).1,
   (MDI_Init_refuses_driver_name env_ok 0
      "-role DRIVER -method TCP -name driver -driver_name driver -port 8021" none State.initial
      [("-role", "DRIVER"), ("-method", "TCP"), ("-name", "driver")] ["driver", "-port", "8021"]
      (by decide) (by decide)).2.1⟩

/-! ### Group discovery: the loops of gather_names -/

theorem found_earlier_succ (names : List String) (name : String) (i : Nat) :
    found_earlier names name (i + 1) =
      if name = names.getD i "" then 1 else found_earlier names name i := by
  simp only [found_earlier, List.range_succ, List.foldl_append, List.foldl_cons, List.foldl_nil]

theorem found_earlier_eq_zero (names : List String) (name : String) (i : Nat) :
    found_earlier names name i = 0 ↔ ∀ j, j < i → names.getD j "" ≠ name := by
  induction i with
  | zero => simp [found_earlier]
  | succ i ih =>
    rw [found_earlier_succ]
    by_cases h : name = names.getD i ""
    · simp only [h, if_true, one_ne_zero, false_iff, not_forall]
      exact ⟨i, Nat.lt_succ_self i, fun hne => hne rfl⟩
    · simp only [h, if_false, ih]
      constructor
      · intro hall j hj
        rcases Nat.lt_succ_iff_lt_or_eq.mp hj with hlt | heq
        · exact hall j hlt
        · rw [heq]
          exact fun e => h e.symm
      · intro hall j hj
        exact hall j (Nat.lt_succ_of_lt hj)

/-- The guard of the communicator loop holds exactly at the first-occurrence ranks. -/
theorem guard_iff_first_occurrence (names : List String) (i : Nat) :
    (found_earlier names (names.getD i "") i = 0 ∧ names.getD i "" ≠ "") ↔
      first_occurrence_of_peer names i = true := by
  simp only [first_occurrence_of_peer, decide_eq_true_eq, found_earlier_eq_zero]
  exact and_comm

theorem gather_body_of_peer (names : List String) (world_rank : Nat) (driver_rank : Int)
    (v : GatherVars) (i : Nat) (h : first_occurrence_of_peer names i = true) :
    gather_body names world_rank driver_rank v i =
      { nunique_names := v.nunique_names + 1
        unique_names := v.unique_names ++ [names.getD i ""]
        s := { v.s with
          mpi_code_rank :=
            if names.getD world_rank "" = names.getD i "" then v.nunique_names + 1
            else v.s.mpi_code_rank
          log := v.s.log ++ [Call.MPI_Comm_split (split_color world_rank driver_rank i)
            (split_key world_rank driver_rank i)]
          communicators := v.s.communicators ++
            (if (world_rank : Int) = driver_rank ∨ world_rank = i then
              [Communicator.CommunicatorMPI
                (MPI_Comm.split (v.s.count Call.isSplit) (split_color world_rank driver_rank i)
                  (split_key world_rank driver_rank i))
                (split_key world_rank driver_rank i)]
            else []) } } := by
  have hg := (guard_iff_first_occurrence names i).mpr h
  unfold gather_body
  dsimp only
  rw [if_pos hg]
  by_cases h1 : names.getD world_rank "" = names.getD i ""
  · by_cases h2 : (world_rank : Int) = driver_rank ∨ world_rank = i
    · simp only [if_pos h1, if_pos h2, State.call, State.new_communicator, State.count]
    · simp only [if_pos h1, if_neg h2, State.call, State.new_communicator, State.count,
        List.append_nil]
  · by_cases h2 : (world_rank : Int) = driver_rank ∨ world_rank = i
    · simp only [if_neg h1, if_pos h2, State.call, State.new_communicator, State.count]
    · simp only [if_neg h1, if_neg h2, State.call, State.new_communicator, State.count,
        List.append_nil]

theorem gather_body_of_not_peer (names : List String) (world_rank : Nat) (driver_rank : Int)
    (v : GatherVars) (i : Nat) (h : first_occurrence_of_peer names i = false) :
    gather_body names world_rank driver_rank v i = v := by
  have hg : ¬ (found_earlier names (names.getD i "") i = 0 ∧ names.getD i "" ≠ "") := by
    rw [guard_iff_first_occurrence, h]
    simp
  unfold gather_body
  simp only [hg, if_false]

theorem gather_loop_succ (names : List String) (world_rank : Nat) (driver_rank : Int)
    (v : GatherVars) (n : Nat) :
    gather_loop names world_rank driver_rank v (n + 1) =
      gather_body names world_rank driver_rank (gather_loop names world_rank driver_rank v n) n := by
  simp only [gather_loop, List.range_succ, List.foldl_append, List.foldl_cons, List.foldl_nil]

theorem peers_before_succ (names : List String) (n : Nat) :
    peers_before names (n + 1) =
      peers_before names n + (if first_occurrence_of_peer names n = true then 1 else 0) := by
  unfold peers_before
  rw [List.range_succ, List.filter_append, List.length_append]
  by_cases h : first_occurrence_of_peer names n = true <;> simp [List.filter_cons, h]

/-- What the communicator loop has done after the ranks `0 .. n-1`: one `MPI_Comm_split`
per first-occurrence rank, in rank order, and one communicator for each of those ranks `f`
with `world_rank = driver_rank` or `world_rank = f`; apart from `mpi_code_rank`, nothing
else changes. -/
theorem gather_loop_spec (names : List String) (world_rank : Nat) (driver_rank : Int)
    (v : GatherVars) (n : Nat) :
    (gather_loop names world_rank driver_rank v n).nunique_names =
        v.nunique_names + (peers_before names n : Int)
    ∧ (gather_loop names world_rank driver_rank v n).s.log =
        v.s.log ++ ((List.range n).filter (first_occurrence_of_peer names)).map
          (fun f => Call.MPI_Comm_split (split_color world_rank driver_rank f)
            (split_key world_rank driver_rank f))
    ∧ (gather_loop names world_rank driver_rank v n).s.communicators =
        v.s.communicators ++
          (((List.range n).filter (first_occurrence_of_peer names)).filter
            (fun f => decide ((world_rank : Int) = driver_rank ∨ world_rank = f))).map
          (fun f => Communicator.CommunicatorMPI
            (MPI_Comm.split (v.s.count Call.isSplit + peers_before names f)
              (split_color world_rank driver_rank f) (split_key world_rank driver_rank f))
            (split_key world_rank driver_rank f))
    ∧ (gather_loop names world_rank driver_rank v n).s.world_rank = v.s.world_rank
    ∧ (gather_loop names world_rank driver_rank v n).s.tcp_socket = v.s.tcp_socket
    ∧ (gather_loop names world_rank driver_rank v n).s.returned_comms = v.s.returned_comms
    ∧ (gather_loop names world_rank driver_rank v n).s.mpi_initialization =
        v.s.mpi_initialization
    ∧ (gather_loop names world_rank driver_rank v n).s.intra_MPI_comm = v.s.intra_MPI_comm := by
  induction n with
  | zero => simp [gather_loop, peers_before]
  | succ n ih =>
    obtain ⟨h1, h2, h3, h4, h5, h6, h7, h8⟩ := ih
    have hcount : (gather_loop names world_rank driver_rank v n).s.count Call.isSplit =
        v.s.count Call.isSplit + peers_before names n := by
      simp only [State.count, h2, List.countP_append, peers_before, List.countP_map]
      congr 1
      rw [List.countP_eq_length.mpr]
      intro a _
      rfl
    rw [gather_loop_succ, peers_before_succ, List.range_succ, List.filter_append]
    by_cases hp : first_occurrence_of_peer names n = true
    · rw [gather_body_of_peer _ _ _ _ _ hp]
      simp only [h1, h2, h3, h4, h5, h6, h7, h8, hcount, hp, if_true, List.filter_cons,
        List.filter_nil, List.map_append, List.filter_append, List.map_cons, List.map_nil,
        List.append_assoc, Nat.cast_add, Nat.cast_one, add_assoc, true_and, and_true]
      by_cases hw : (world_rank : Int) = driver_rank ∨ world_rank = n
      · simp [hw]
      · simp [hw]
    · have hp' : first_occurrence_of_peer names n = false := by simpa using hp
      rw [gather_body_of_not_peer _ _ _ _ _ hp']
      simp only [h1, h2, h3, h4, h5, h6, h7, h8, hp', List.filter_cons, List.filter_nil,
        List.append_nil, Bool.false_eq_true, if_false, add_zero, true_and, and_true]

theorem first_occurrence_of_peer_iff (names : List String) (i : Nat) :
    first_occurrence_of_peer names i = true ↔
      (names.getD i "" ≠ "" ∧ ∀ j, j < i → names.getD j "" ≠ names.getD i "") := by
  simp only [first_occurrence_of_peer, decide_eq_true_eq]

/-- The first rank holding `a` is `n` exactly when rank `n` holds `a` and no earlier rank
does. -/
theorem indexOf_eq_iff_first (a : String) :
    ∀ (names : List String) (n : Nat), n < names.length →
      (names.indexOf a = n ↔ (names.getD n "" = a ∧ ∀ j, j < n → names.getD j "" ≠ a)) := by
  intro names
  induction names with
  | nil =>
    intro n hn
    exact absurd hn (Nat.not_lt_zero n)
  | cons x xs ih =>
    intro n hn
    by_cases hx : x = a
    · rw [List.indexOf_cons_eq _ hx]
      cases n with
      | zero =>
        constructor
        · intro _
          exact ⟨hx, fun j hj => absurd hj (Nat.not_lt_zero j)⟩
        · intro _
          rfl
      | succ m =>
        constructor
        · intro h
          exact absurd h (Nat.succ_ne_zero m).symm
        · intro h
          exact absurd hx (h.2 0 (Nat.succ_pos m))
    · rw [List.indexOf_cons_ne _ hx]
      cases n with
      | zero =>
        constructor
        · intro h
          exact absurd h (Nat.succ_ne_zero _)
        · intro h
          exact absurd h.1 hx
      | succ m =>
        have hm : m < xs.length := Nat.lt_of_succ_lt_succ hn
        rw [Nat.succ_inj', ih m hm]
        constructor
        · intro h
          refine ⟨h.1, ?_⟩
          intro j hj
          cases j with
          | zero => exact hx
          | succ k => exact h.2 k (Nat.lt_of_succ_lt_succ hj)
        · intro h
          exact ⟨h.1, fun j hj => h.2 (j + 1) (Nat.succ_lt_succ hj)⟩

/-- A first-occurrence rank is a rank of the gathered list. -/
theorem first_occurrence_lt_length (names : List String) (i : Nat)
    (h : first_occurrence_of_peer names i = true) : i < names.length := by
  by_contra hlt
  have hd : names.getD i "" = "" := List.getD_eq_default _ _ (Nat.le_of_not_lt hlt)
  exact ((first_occurrence_of_peer_iff names i).mp h).1 hd

/-- A first-occurrence rank is the first rank holding its name. -/
theorem indexOf_first_occurrence (names : List String) (i : Nat)
    (h : first_occurrence_of_peer names i = true) : names.indexOf (names.getD i "") = i :=
  (indexOf_eq_iff_first _ names i (first_occurrence_lt_length names i h)).mpr
    ⟨rfl, ((first_occurrence_of_peer_iff names i).mp h).2⟩

/-- The first rank holding a non-empty name of the list is a first-occurrence rank. -/
theorem first_occurrence_indexOf (names : List String) (a : String) (ha : a ≠ "")
    (hmem : a ∈ names) : first_occurrence_of_peer names (names.indexOf a) = true := by
  have hlt : names.indexOf a < names.length := List.indexOf_lt_length.mpr hmem
  have h := (indexOf_eq_iff_first a names _ hlt).mp rfl
  rw [first_occurrence_of_peer_iff, h.1]
  exact ⟨ha, h.2⟩

/-- The value of `mpi_code_rank` after the communicator loop has run over the ranks
`0 .. n-1`: once the first rank holding this rank's own non-empty name has been passed, it
is the number of first-occurrence ranks up to and including that rank. -/
theorem gather_loop_mpi_code_rank (names : List String) (world_rank : Nat)
    (driver_rank : Int) (v : GatherVars) (n : Nat) (hn : n ≤ names.length) :
    (gather_loop names world_rank driver_rank v n).s.mpi_code_rank =
      if names.getD world_rank "" ≠ "" ∧ names.indexOf (names.getD world_rank "") < n then
        v.nunique_names + (peers_before names (names.indexOf (names.getD world_rank "")) : Int)
          + 1
      else v.s.mpi_code_rank := by
  induction n with
  | zero => simp [gather_loop]
  | succ n ih =>
    have hlt : n < names.length := hn
    have ih' := ih (Nat.le_of_lt hlt)
    have hnu := (gather_loop_spec names world_rank driver_rank v n).1
    rw [gather_loop_succ]
    by_cases hp : first_occurrence_of_peer names n = true
    · rw [gather_body_of_peer _ _ _ _ _ hp]
      by_cases hmy : names.getD world_rank "" = names.getD n ""
      · have hidx : names.indexOf (names.getD world_rank "") = n := by
          rw [hmy]
          exact indexOf_first_occurrence names n hp
        have hne : names.getD world_rank "" ≠ "" := by
          rw [hmy]
          exact ((first_occurrence_of_peer_iff names n).mp hp).1
        simp only [if_pos hmy, hnu]
        rw [if_pos ⟨hne, by rw [hidx]; exact Nat.lt_succ_self n⟩, hidx]
      · have hidx : names.indexOf (names.getD world_rank "") ≠ n := by
          intro h
          exact hmy ((indexOf_eq_iff_first _ names n hlt).mp h).1.symm
        simp only [if_neg hmy, ih']
        have hiff : (names.getD world_rank "" ≠ "" ∧
              names.indexOf (names.getD world_rank "") < n + 1)
            ↔ (names.getD world_rank "" ≠ "" ∧ names.indexOf (names.getD world_rank "") < n) := by
          constructor
          · intro h
            exact ⟨h.1, by omega⟩
          · intro h
            exact ⟨h.1, by omega⟩
        simp only [hiff]
    · have hp' : first_occurrence_of_peer names n = false := by simpa using hp
      rw [gather_body_of_not_peer _ _ _ _ _ hp', ih']
      have hiff : (names.getD world_rank "" ≠ "" ∧
            names.indexOf (names.getD world_rank "") < n + 1)
          ↔ (names.getD world_rank "" ≠ "" ∧ names.indexOf (names.getD world_rank "") < n) := by
        constructor
        · intro h
          refine ⟨h.1, ?_⟩
          have hidx : names.indexOf (names.getD world_rank "") ≠ n := by
            intro heq
            have hf := (indexOf_eq_iff_first _ names n hlt).mp heq
            apply hp
            rw [first_occurrence_of_peer_iff, hf.1]
            exact ⟨h.1, hf.2⟩
          omega
        · intro h
          exact ⟨h.1, by omega⟩
      simp only [hiff]

/-! ### First-occurrence ranks and distinct names -/

theorem countP_disjoint_or {α : Type} (p q r : α → Bool) (l : List α)
    (hor : ∀ x, x ∈ l → p x = (q x || r x))
    (hdisj : ∀ x, x ∈ l → ¬ (q x = true ∧ r x = true)) :
    l.countP p = l.countP q + l.countP r := by
  induction l with
  | nil => rfl
  | cons a l ih =>
    have ih' := ih (fun x hx => hor x (List.mem_cons_of_mem a hx))
      (fun x hx => hdisj x (List.mem_cons_of_mem a hx))
    have ha := hor a (List.mem_cons_self a l)
    have hd := hdisj a (List.mem_cons_self a l)
    rw [List.countP_cons, List.countP_cons, List.countP_cons, ih', ha]
    cases hq : q a <;> cases hr : r a
    · simp
    · simp
      omega
    · simp
      omega
    · exact absurd ⟨hq, hr⟩ hd

/-- Counting first-occurrence ranks below `f` is counting the distinct non-empty names
whose first occurrence is below `f`. -/
theorem peers_before_eq_distinct (names : List String) (f : Nat) (hf : f ≤ names.length) :
    peers_before names f =
      (names.dedup.filter (fun m => decide (m ≠ "" ∧ names.indexOf m < f))).length := by
  induction f with
  | zero => simp [peers_before]
  | succ f ih =>
    have hlt : f < names.length := hf
    rw [peers_before_succ, ih (Nat.le_of_lt hlt), ← List.countP_eq_length_filter,
      ← List.countP_eq_length_filter]
    rw [countP_disjoint_or (fun m => decide (m ≠ "" ∧ names.indexOf m < f + 1))
      (fun m => decide (m ≠ "" ∧ names.indexOf m < f))
      (fun m => decide (m ≠ "" ∧ names.indexOf m = f)) names.dedup]
    · congr 1
      by_cases hp : first_occurrence_of_peer names f = true
      · rw [if_pos hp]
        have hfirst := (first_occurrence_of_peer_iff names f).mp hp
        have hmem : names.getD f "" ∈ names := by
          rw [List.getD_eq_getElem _ _ hlt]
          exact List.getElem_mem hlt
        have hcount : names.dedup.count (names.getD f "") = 1 := by
          rw [List.count_dedup, if_pos hmem]
        rw [← hcount, List.count]
        apply List.countP_congr
        intro x hx
        simp only [decide_eq_true_eq, beq_iff_eq]
        constructor
        · intro h
          rw [h]
          exact ⟨hfirst.1, indexOf_first_occurrence names f hp⟩
        · intro h
          exact ((indexOf_eq_iff_first x names f hlt).mp h.2).1.symm
      · rw [if_neg hp, eq_comm, List.countP_eq_zero]
        intro x _ hx
        simp only [decide_eq_true_eq] at hx
        have h := (indexOf_eq_iff_first x names f hlt).mp hx.2
        apply hp
        rw [first_occurrence_of_peer_iff, h.1]
        exact ⟨hx.1, h.2⟩
    · intro x _
      by_cases h1 : x ≠ "" <;> by_cases h2 : names.indexOf x < f <;>
        by_cases h3 : names.indexOf x = f <;> simp [h1, h2, h3] <;> omega
    · intro x _ h
      simp only [decide_eq_true_eq] at h
      omega

/-! ### Peer ordinals -/

theorem length_MPI_Allgather (env : Env) (buffer : String) :
    (MPI_Allgather env buffer).length = env.names.length := by
  simp [MPI_Allgather]

/-- In the gathered list, the entry of the calling rank is the name it contributed. -/
theorem getD_MPI_Allgather (env : Env) (buffer : String)
    (hrank : env.world_rank < env.names.length) :
    (MPI_Allgather env buffer).getD env.world_rank "" = buffer := by
  have h : env.world_rank < (MPI_Allgather env buffer).length := by
    rw [length_MPI_Allgather]
    exact hrank
  rw [List.getD_eq_getElem _ _ h]
  simp [MPI_Allgather]

theorem gather_names_eq (env : Env) (hostname_ptr : String) (do_split : Bool) (s : State) :
    (gather_names env hostname_ptr do_split s).2 =
      if do_split then
        { (gather_exit env hostname_ptr s).s with
          intra_MPI_comm := MPI_Comm.split ((gather_exit env hostname_ptr s).s.count Call.isSplit)
            (gather_exit env hostname_ptr s).s.mpi_code_rank
            (gather_exit env hostname_ptr s).s.world_rank
          intra_rank := env.split_rank (gather_exit env hostname_ptr s).s.mpi_code_rank
            (gather_exit env hostname_ptr s).s.world_rank
          log := (gather_exit env hostname_ptr s).s.log ++
            [Call.MPI_Comm_split (gather_exit env hostname_ptr s).s.mpi_code_rank
              (gather_exit env hostname_ptr s).s.world_rank, Call.MPI_Comm_rank,
              Call.MPI_Barrier] }
      else (gather_exit env hostname_ptr s).s := by
  cases do_split
  · rfl
  · simp only [gather_names, gather_exit, gather_entry, State.call, State.count, if_true,
      List.append_assoc, List.cons_append, List.nil_append]

theorem gather_entry_mpi_code_rank (env : Env) (hostname_ptr : String) (s : State) :
    (gather_entry env hostname_ptr s).mpi_code_rank = s.mpi_code_rank := by
  unfold gather_entry
  dsimp only
  split <;> rfl

theorem gather_entry_world_rank (env : Env) (hostname_ptr : String) (s : State) :
    (gather_entry env hostname_ptr s).world_rank = (env.world_rank : Int) := by
  unfold gather_entry
  dsimp only
  split <;> rfl

theorem gather_entry_communicators (env : Env) (hostname_ptr : String) (s : State) :
    (gather_entry env hostname_ptr s).communicators = s.communicators := by
  unfold gather_entry
  dsimp only
  split <;> rfl

theorem gather_entry_count_split (env : Env) (hostname_ptr : String) (s : State) :
    (gather_entry env hostname_ptr s).count Call.isSplit = s.count Call.isSplit := by
  unfold gather_entry
  dsimp only
  split <;> simp [State.count, State.call, Call.isSplit]

/-- The value `gather_names` leaves in `mpi_code_rank` is the one the communicator loop
computed. -/
theorem gather_names_mpi_code_rank (env : Env) (hostname_ptr : String) (do_split : Bool)
    (s : State) :
    (gather_names env hostname_ptr do_split s).2.mpi_code_rank =
      (gather_exit env hostname_ptr s).s.mpi_code_rank := by
  rw [gather_names_eq]
  cases do_split <;> rfl

theorem peers_before_mono (names : List String) (n m : Nat) (h : n ≤ m) :
    peers_before names n ≤ peers_before names m := by
  induction m with
  | zero =>
    have : n = 0 := Nat.le_zero.mp h
    rw [this]
  | succ m ih =>
    rcases Nat.le_succ_iff.mp h with hle | heq
    · rw [peers_before_succ]
      exact Nat.le_trans (ih hle) (Nat.le_add_right _ _)
    · rw [heq]

/-- For a non-empty name of the list, the ordinal of the specification is one more than the
number of first-occurrence ranks below the first rank holding the name. -/
theorem peer_ordinal_eq_peers_before (names : List String) (a : String) (ha : a ≠ "") :
    peer_ordinal names a = 1 + (peers_before names (names.indexOf a) : Int) := by
  rw [peer_ordinal, if_neg ha, peers_before_eq_distinct names _ List.indexOf_le_length]

/-- What `gather_names` leaves in `mpi_code_rank` on the calling rank: for a non-empty name
the ordinal of the name in the gathered list, for the empty name the value found on
entry. -/
theorem gather_names_computes_peer_ordinal (env : Env) (hostname_ptr : String)
    (do_split : Bool) (s : State) (hrank : env.world_rank < env.names.length) :
    (gather_names env hostname_ptr do_split s).2.mpi_code_rank =
      if hostname_ptr = "" then s.mpi_code_rank
      else peer_ordinal (MPI_Allgather env hostname_ptr) hostname_ptr := by
  have hlen := length_MPI_Allgather env hostname_ptr
  have hmy := getD_MPI_Allgather env hostname_ptr hrank
  have hmem : hostname_ptr ∈ MPI_Allgather env hostname_ptr := by
    have h : env.world_rank < (MPI_Allgather env hostname_ptr).length := by
      rw [hlen]
      exact hrank
    have hm : (MPI_Allgather env hostname_ptr)[env.world_rank] ∈
        MPI_Allgather env hostname_ptr := List.getElem_mem h
    rw [List.getD_eq_getElem _ _ h] at hmy
    rw [hmy] at hm
    exact hm
  have hmy := getD_MPI_Allgather env hostname_ptr hrank
  rw [gather_names_mpi_code_rank, gather_exit,
    gather_loop_mpi_code_rank _ _ _ _ _ (le_of_eq hlen.symm), hmy, gather_entry_mpi_code_rank]
  by_cases hne : hostname_ptr = ""
  · rw [if_neg (fun h => h.1 hne), if_pos hne]
  · have hidx : List.indexOf hostname_ptr (MPI_Allgather env hostname_ptr) < env.names.length := by
      rw [← hlen]
      exact List.indexOf_lt_length.mpr hmem
    rw [if_pos ⟨hne, hidx⟩, if_neg hne, peer_ordinal_eq_peers_before _ _ hne]
    simp only [Nat.cast_zero, zero_add]
    omega

/-- Claim C3, amended. On a rank with a non-empty name, whatever the state on entry, the
peer-ordinal `gather_names` computes is a function of the gathered list and the rank's own
name: 1 plus the number of distinct non-empty names whose first occurrence is at a lower
rank than the first occurrence of its own name. So any other rank that gathers the same
list and has the same non-empty name gets the same ordinal; ordinals increase strictly with
the rank of first occurrence; and in a list that holds only the names "", "A" and "B", with
"A" first occurring before "B", "A" gets 1 and "B" gets 2. On a rank with the empty name
`gather_names` does not assign the ordinal: `mpi_code_rank` keeps the value it had on
entry, which is 0 when it was 0 on entry, as in a process that has not assigned it
before. -/
theorem gather_names_peer_ordinal (env : Env) (hostname_ptr : String) (do_split : Bool)
    (s : State) (hrank : env.world_rank < env.names.length) :
    (hostname_ptr ≠ "" → (gather_names env hostname_ptr do_split s).2.mpi_code_rank =
        peer_ordinal (MPI_Allgather env hostname_ptr) hostname_ptr)
    ∧ (hostname_ptr ≠ "" → (gather_names env hostname_ptr do_split s).2.mpi_code_rank =
        1 + (((MPI_Allgather env hostname_ptr).dedup.filter (fun m => decide (m ≠ "" ∧
          (MPI_Allgather env hostname_ptr).indexOf m <
            (MPI_Allgather env hostname_ptr).indexOf hostname_ptr))).length : Int))
    ∧ (hostname_ptr = "" →
        (gather_names env hostname_ptr do_split s).2.mpi_code_rank = s.mpi_code_rank)
    ∧ (hostname_ptr = "" → s.mpi_code_rank = 0 →
        (gather_names env hostname_ptr do_split s).2.mpi_code_rank = 0
        ∧ peer_ordinal (MPI_Allgather env hostname_ptr) hostname_ptr = 0)
    ∧ (∀ (env2 : Env) (do_split2 : Bool) (s2 : State),
        env2.world_rank < env2.names.length → hostname_ptr ≠ "" →
        MPI_Allgather env2 hostname_ptr = MPI_Allgather env hostname_ptr →
        (gather_names env2 hostname_ptr do_split2 s2).2.mpi_code_rank =
          (gather_names env hostname_ptr do_split s).2.mpi_code_rank)
    ∧ (∀ a b : String, a ≠ "" → b ≠ "" → a ∈ MPI_Allgather env hostname_ptr →
        (MPI_Allgather env hostname_ptr).indexOf a < (MPI_Allgather env hostname_ptr).indexOf b →
        peer_ordinal (MPI_Allgather env hostname_ptr) a <
          peer_ordinal (MPI_Allgather env hostname_ptr) b)
    ∧ ((∀ m, m ∈ MPI_Allgather env hostname_ptr → m = "" ∨ m = "A" ∨ m = "B") →
        "A" ∈ MPI_Allgather env hostname_ptr →
        (MPI_Allgather env hostname_ptr).indexOf "A" <
          (MPI_Allgather env hostname_ptr).indexOf "B" →
        peer_ordinal (MPI_Allgather env hostname_ptr) "A" = 1
          ∧ peer_ordinal (MPI_Allgather env hostname_ptr) "B" = 2) := by
  have hmain := gather_names_computes_peer_ordinal env hostname_ptr do_split s hrank
  refine ⟨?_, ?_, ?_, ?_, ?_, ?_, ?_⟩
  · intro hne
    rw [hmain, if_neg hne]
  · intro hne
    rw [hmain, if_neg hne, peer_ordinal, if_neg hne]
  · intro he
    rw [hmain, if_pos he]
  · intro he hzero
    constructor
    · rw [hmain, if_pos he, hzero]
    · rw [peer_ordinal, if_pos he]
  · intro env2 do_split2 s2 hrank2 hne hsame
    rw [hmain, gather_names_computes_peer_ordinal env2 hostname_ptr do_split2 s2 hrank2,
      if_neg hne, if_neg hne, hsame]
  · intro a b ha hb hmem hlt
    rw [peer_ordinal_eq_peers_before _ _ ha, peer_ordinal_eq_peers_before _ _ hb]
    have hstep := peers_before_succ (MPI_Allgather env hostname_ptr)
      ((MPI_Allgather env hostname_ptr).indexOf a)
    rw [if_pos (first_occurrence_indexOf _ a ha hmem)] at hstep
    have hmono := peers_before_mono (MPI_Allgather env hostname_ptr)
      ((MPI_Allgather env hostname_ptr).indexOf a + 1)
      ((MPI_Allgather env hostname_ptr).indexOf b) hlt
    omega
  · intro hall hA hlt
    constructor
    · rw [peer_ordinal, if_neg (by decide)]
      have hzero : ((MPI_Allgather env hostname_ptr).dedup.filter (fun m => decide (m ≠ "" ∧
          (MPI_Allgather env hostname_ptr).indexOf m <
            (MPI_Allgather env hostname_ptr).indexOf "A"))).length = 0 := by
        rw [← List.countP_eq_length_filter, List.countP_eq_zero]
        intro m hm hp
        simp only [decide_eq_true_eq] at hp
        rcases hall m (List.mem_dedup.mp hm) with h | h | h
        · exact hp.1 h
        · rw [h] at hp
          exact absurd hp.2 (Nat.lt_irrefl _)
        · rw [h] at hp
          exact absurd hp.2 (Nat.lt_asymm hlt)
      rw [hzero]
      rfl
    · rw [peer_ordinal, if_neg (by decide)]
      have hone : ((MPI_Allgather env hostname_ptr).dedup.filter (fun m => decide (m ≠ "" ∧
          (MPI_Allgather env hostname_ptr).indexOf m <
            (MPI_Allgather env hostname_ptr).indexOf "B"))).length = 1 := by
        have hcount : (MPI_Allgather env hostname_ptr).dedup.count "A" = 1 := by
          rw [List.count_dedup, if_pos hA]
        rw [← List.countP_eq_length_filter, ← hcount, List.count]
        apply List.countP_congr
        intro m hm
        simp only [decide_eq_true_eq, beq_iff_eq]
        constructor
        · intro hp
          rcases hall m (List.mem_dedup.mp hm) with h | h | h
          · exact absurd h hp.1
          · exact h
          · rw [h] at hp
            exact absurd hp.2 (Nat.lt_irrefl _)
        · intro h
          rw [h]
          exact ⟨by decide, hlt⟩
      rw [hone]
      rfl

theorem gather_names_peer_ordinal_witness :
    env_rank_three.world_rank < env_rank_three.names.length
    ∧ (gather_names env_rank_three "A" true state_after_engine_gather).2.mpi_code_rank = 1
    ∧ (peer_ordinal (MPI_Allgather env_rank_three "A") "A" = 1
      ∧ peer_ordinal (MPI_Allgather env_rank_three "A") "B" = 2)
    ∧ (gather_names env_rank_three "" true state_after_engine_gather).2.mpi_code_rank =
        state_after_engine_gather.mpi_code_rank :=
  ⟨by decide,
    ((gather_names_peer_ordinal env_rank_three "A" true state_after_engine_gather
        (by decide)).1 (by decide)).trans (by decide),
    (gather_names_peer_ordinal env_rank_three "A" true state_after_engine_gather
        (by decide)).2.2.2.2.2.2 (by decide) (by decide) (by decide),
    (gather_names_peer_ordinal env_rank_three "" true state_after_engine_gather
        (by decide)).2.2.1 rfl⟩

/-- Claim C3 fails for the empty name in a process that has run group discovery before. On
rank 1 of the group with names "", "A", "B", "A", a first call `gather_names("A", true)`
sets `mpi_code_rank` to 1; a second call on the same rank with the empty name, as made by
`MDI_Init` for role DRIVER, gathers the list "", "", "B", "A" and leaves `mpi_code_rank`
at 1, where the claim gives a rank with the empty name the ordinal 0. The same happens when
the two calls are made through `MDI_Init`. -/
theorem gather_names_keeps_ordinal_for_empty_name :
    state_after_engine_gather.mpi_code_rank = 1
    ∧ MPI_Allgather env_rank_one "" = ["", "", "B", "A"]
    ∧ (gather_names env_rank_one "" true state_after_engine_gather).2.mpi_code_rank = 1
    ∧ peer_ordinal (MPI_Allgather env_rank_one "") "" = 0
    ∧ ((MDI_Init env_rank_one 0 "-role ENGINE -method MPI -name A _language C"
          (some MPI_Comm.MPI_COMM_WORLD) State.initial).final_state.bind fun s1 =>
        ((MDI_Init env_rank_one 0 "-role DRIVER -method MPI -name driver _language C"
          (some MPI_Comm.MPI_COMM_WORLD) s1).final_state.map
            fun s2 => (s1.mpi_code_rank, s2.mpi_code_rank))) = some (1, 1) := by
  decide

/-! ### The driver rank -/

theorem indexOf_le_of_getD_eq (names : List String) (a : String) (n : Nat)
    (hn : n < names.length) (h : names.getD n "" = a) : names.indexOf a ≤ n := by
  by_contra hgt
  have hmem : a ∈ names := by
    rw [← h, List.getD_eq_getElem _ _ hn]
    exact List.getElem_mem hn
  have hlt : names.indexOf a < names.length := List.indexOf_lt_length.mpr hmem
  exact ((indexOf_eq_iff_first a names _ hlt).mp rfl).2 n (Nat.lt_of_not_le hgt) h

theorem find_driver_rank_upto (names : List String) (n : Nat) (hn : n ≤ names.length) :
    (List.range n).foldl
      (fun (driver_rank : Int) (i : Nat) =>
        if driver_rank = -1 then
          if names.getD i "" = "" then (i : Int) else driver_rank
        else driver_rank)
      (-1) = if names.indexOf "" < n then (names.indexOf "" : Int) else -1 := by
  induction n with
  | zero => simp
  | succ n ih =>
    have hlt : n < names.length := hn
    rw [List.range_succ, List.foldl_append, ih (Nat.le_of_lt hlt)]
    simp only [List.foldl_cons, List.foldl_nil]
    by_cases hidx : names.indexOf "" < n
    · have hne : ¬ ((names.indexOf "" : Int) = -1) := by omega
      rw [if_pos hidx, if_neg hne, if_pos (Nat.lt_succ_of_lt hidx)]
    · rw [if_neg hidx, if_pos rfl]
      by_cases hname : names.getD n "" = ""
      · have hle := indexOf_le_of_getD_eq names "" n hlt hname
        have heq : names.indexOf "" = n := by omega
        rw [if_pos hname, if_pos (by omega), heq]
      · have hneq : names.indexOf "" ≠ n := by
          intro h
          exact hname ((indexOf_eq_iff_first "" names n hlt).mp h).1
        rw [if_neg hname, if_neg (by omega)]

/-- The driver rank `gather_names` determines is the lowest rank that contributed the empty
name, and -1 when no rank did. -/
theorem find_driver_rank_eq (names : List String) :
    find_driver_rank names = if "" ∈ names then (names.indexOf "" : Int) else -1 := by
  unfold find_driver_rank
  rw [find_driver_rank_upto names names.length (Nat.le_refl _)]
  by_cases h : "" ∈ names
  · rw [if_pos h, if_pos (List.indexOf_lt_length.mpr h)]
  · rw [if_neg h, if_neg (fun hlt => h (List.indexOf_lt_length.mp hlt))]

/-- Claim C6, evaluated where the code departs from it. In a process group of the two
engines "A" and "B", where no rank contributed the empty name, `gather_names("A", true)` on
rank 0 finds no driver rank, reports that it cannot identify the driver and then carries
on: it assigns peer-ordinal 1, creates a communicator, splits off the intra-code group and
returns 0. -/
theorem gather_names_continues_without_driver :
    MPI_Allgather env_no_driver "A" = ["A", "B"]
    ∧ find_driver_rank (MPI_Allgather env_no_driver "A") = -1
    ∧ gather_names env_no_driver "A" true State.initial =
      (0, { State.initial with
        world_rank := 0
        mpi_code_rank := 1
        intra_MPI_comm := MPI_Comm.split 2 1 0
        intra_rank := 0
        communicators := [Communicator.CommunicatorMPI (MPI_Comm.split 0 1 1) 1]
        log := [Call.MPI_Comm_size, Call.MPI_Comm_rank, Call.MPI_Allgather "A",
          Call.perror "Unable to identify driver when attempting to connect via MPI",
          Call.MPI_Comm_split 1 1, Call.MPI_Comm_split 0 0, Call.MPI_Comm_split 1 0,
          Call.MPI_Comm_rank, Call.MPI_Barrier] }) := by
  decide

/-! ### The two-member groups -/

theorem split_color_eq (r d f : Nat) :
    split_color (r : Int) (d : Int) f = (color_key r d f).1 := by
  unfold split_color color_key
  by_cases h1 : r = d
  · simp [h1]
  · have h1' : ¬ ((r : Int) = (d : Int)) := fun h => h1 (Nat.cast_inj.mp h)
    by_cases h2 : r = f
    · subst h2
      simp [h1, h1']
    · have h2' : ¬ ((r : Int) = (f : Int)) := fun h => h2 (Nat.cast_inj.mp h)
      simp [h1, h1', h2, h2']

theorem split_key_eq (r d f : Nat) :
    split_key (r : Int) (d : Int) f = (color_key r d f).2 := by
  unfold split_key color_key
  by_cases h1 : r = d
  · simp [h1]
  · have h1' : ¬ ((r : Int) = (d : Int)) := fun h => h1 (Nat.cast_inj.mp h)
    by_cases h2 : r = f
    · subst h2
      simp [h1, h1']
    · have h2' : ¬ ((r : Int) = (f : Int)) := fun h => h2 (Nat.cast_inj.mp h)
      simp [h1, h1', h2, h2']

theorem nodup_peer_ranks (names : List String) : (peer_ranks names).Nodup :=
  List.Nodup.filter _ (List.nodup_range _)

theorem mem_peer_ranks (names : List String) (f : Nat) :
    f ∈ peer_ranks names ↔ first_occurrence_of_peer names f = true := by
  unfold peer_ranks
  rw [List.mem_filter, List.mem_range]
  constructor
  · intro h
    exact h.2
  · intro h
    exact ⟨first_occurrence_lt_length names f h, h⟩

/-- The communicators `gather_names` appends and the splits it requests for the peers, on
a rank `r` of a group whose driver rank is `d`. -/
theorem gather_names_links (env : Env) (hostname_ptr : String) (do_split : Bool) (s : State)
    (hdriver : "" ∈ MPI_Allgather env hostname_ptr) :
    (gather_names env hostname_ptr do_split s).2.log =
        s.log ++ [Call.MPI_Comm_size, Call.MPI_Comm_rank, Call.MPI_Allgather hostname_ptr]
          ++ (peer_ranks (MPI_Allgather env hostname_ptr)).map
            (fun f => Call.MPI_Comm_split
              (color_key env.world_rank ((MPI_Allgather env hostname_ptr).indexOf "") f).1
              (color_key env.world_rank ((MPI_Allgather env hostname_ptr).indexOf "") f).2)
          ++ (if do_split then
              [Call.MPI_Comm_split (gather_names env hostname_ptr do_split s).2.mpi_code_rank
                (env.world_rank : Int), Call.MPI_Comm_rank, Call.MPI_Barrier]
            else [])
    ∧ (gather_names env hostname_ptr do_split s).2.communicators =
        s.communicators ++
          ((peer_ranks (MPI_Allgather env hostname_ptr)).filter (fun f => decide
            (env.world_rank = (MPI_Allgather env hostname_ptr).indexOf "" ∨
              env.world_rank = f))).map
            (fun f => Communicator.CommunicatorMPI
              (MPI_Comm.split
                (s.count Call.isSplit + peers_before (MPI_Allgather env hostname_ptr) f)
                (color_key env.world_rank ((MPI_Allgather env hostname_ptr).indexOf "") f).1
                (color_key env.world_rank ((MPI_Allgather env hostname_ptr).indexOf "") f).2)
              (color_key env.world_rank ((MPI_Allgather env hostname_ptr).indexOf "") f).2) := by
  have hd : find_driver_rank (MPI_Allgather env hostname_ptr) =
      (((MPI_Allgather env hostname_ptr).indexOf "" : Nat) : Int) := by
    rw [find_driver_rank_eq, if_pos hdriver]
  have hne : ¬ ((((MPI_Allgather env hostname_ptr).indexOf "" : Nat) : Int) = -1) := by omega
  have hentry : (gather_entry env hostname_ptr s).log =
      s.log ++ [Call.MPI_Comm_size, Call.MPI_Comm_rank, Call.MPI_Allgather hostname_ptr] := by
    unfold gather_entry
    dsimp only
    rw [hd, if_neg hne]
    simp [State.call]
  obtain ⟨_, hlog, hcomm, hwr, _⟩ := gather_loop_spec (MPI_Allgather env hostname_ptr)
    env.world_rank (find_driver_rank (MPI_Allgather env hostname_ptr))
    { nunique_names := 0, unique_names := [], s := gather_entry env hostname_ptr s }
    env.names.length
  have hlog' : (gather_exit env hostname_ptr s).s.log =
      s.log ++ [Call.MPI_Comm_size, Call.MPI_Comm_rank, Call.MPI_Allgather hostname_ptr]
        ++ (peer_ranks (MPI_Allgather env hostname_ptr)).map
          (fun f => Call.MPI_Comm_split
            (color_key env.world_rank ((MPI_Allgather env hostname_ptr).indexOf "") f).1
            (color_key env.world_rank ((MPI_Allgather env hostname_ptr).indexOf "") f).2) := by
    rw [gather_exit, hlog, hentry, peer_ranks, length_MPI_Allgather, hd]
    simp only [split_color_eq, split_key_eq]
  have hcomm' : (gather_exit env hostname_ptr s).s.communicators =
      s.communicators ++
        ((peer_ranks (MPI_Allgather env hostname_ptr)).filter (fun f => decide
          (env.world_rank = (MPI_Allgather env hostname_ptr).indexOf "" ∨
            env.world_rank = f))).map
          (fun f => Communicator.CommunicatorMPI
            (MPI_Comm.split
              (s.count Call.isSplit + peers_before (MPI_Allgather env hostname_ptr) f)
              (color_key env.world_rank ((MPI_Allgather env hostname_ptr).indexOf "") f).1
              (color_key env.world_rank ((MPI_Allgather env hostname_ptr).indexOf "") f).2)
            (color_key env.world_rank ((MPI_Allgather env hostname_ptr).indexOf "") f).2) := by
    rw [gather_exit, hcomm, gather_entry_communicators, gather_entry_count_split, peer_ranks,
      length_MPI_Allgather, hd]
    simp only [split_color_eq, split_key_eq, Nat.cast_inj]
  have hwr' : (gather_exit env hostname_ptr s).s.world_rank = (env.world_rank : Int) := by
    rw [gather_exit, hwr, gather_entry_world_rank]
  have hrank := gather_names_mpi_code_rank env hostname_ptr do_split s
  rw [gather_names_eq] at hrank ⊢
  cases do_split
  · simp only [Bool.false_eq_true, if_false, List.append_nil]
    exact ⟨hlog', hcomm'⟩
  · simp only [if_true] at hrank ⊢
    refine ⟨?_, hcomm'⟩
    rw [hlog', hwr']

/-- Claim C8. Let `names` be the gathered list, containing the empty name, let `d` be the
lowest rank with the empty name and `r` the calling rank. `gather_names` takes `d` as the
driver rank. For every distinct peer, in the order of their first-occurrence ranks `f`, it
calls `MPI_Comm_split` with `(color, key) = (1, 0)` if `r = d`, `(1, 1)` if `r = f` and
`(0, 0)` otherwise, so that color 1 holds exactly the ranks `d` and `f`; and it creates a
communicator for that peer, with sub-rank `key`, exactly when `r = d` or `r = f`. Hence the
driver rank creates one communicator per distinct peer, in peer-ordinal order, each with
sub-rank 0; a first-occurrence rank creates exactly one, with sub-rank 1; every other rank
creates none. -/
theorem gather_names_peer_links (env : Env) (hostname_ptr : String) (do_split : Bool)
    (s : State) (names : List String) (d : Nat)
    (hnames : names = MPI_Allgather env hostname_ptr) (hd : d = names.indexOf "")
    (hdriver : "" ∈ names) :
    (find_driver_rank names = (d : Int) ∧ names.getD d "" = "")
    ∧ (gather_names env hostname_ptr do_split s).2.log =
        s.log ++ [Call.MPI_Comm_size, Call.MPI_Comm_rank, Call.MPI_Allgather hostname_ptr]
          ++ (peer_ranks names).map (fun f => Call.MPI_Comm_split
            (color_key env.world_rank d f).1 (color_key env.world_rank d f).2)
          ++ (if do_split then
              [Call.MPI_Comm_split (gather_names env hostname_ptr do_split s).2.mpi_code_rank
                (env.world_rank : Int), Call.MPI_Comm_rank, Call.MPI_Barrier]
            else [])
    ∧ (∀ r f : Nat, f ∈ peer_ranks names → ((color_key r d f).1 = 1 ↔ (r = d ∨ r = f)))
    ∧ (gather_names env hostname_ptr do_split s).2.communicators =
        s.communicators ++
          ((peer_ranks names).filter (fun f => decide (env.world_rank = d ∨ env.world_rank = f))).map
            (fun f => Communicator.CommunicatorMPI
              (MPI_Comm.split (s.count Call.isSplit + peers_before names f)
                (color_key env.world_rank d f).1 (color_key env.world_rank d f).2)
              (color_key env.world_rank d f).2)
    ∧ (env.world_rank = d →
        (gather_names env hostname_ptr do_split s).2.communicators =
          s.communicators ++ (peer_ranks names).map (fun f => Communicator.CommunicatorMPI
            (MPI_Comm.split (s.count Call.isSplit + peers_before names f) 1 0) 0))
    ∧ (env.world_rank ∈ peer_ranks names →
        (gather_names env hostname_ptr do_split s).2.communicators =
          s.communicators ++ [Communicator.CommunicatorMPI
            (MPI_Comm.split (s.count Call.isSplit + peers_before names env.world_rank) 1 1) 1])
    ∧ (env.world_rank ≠ d → env.world_rank ∉ peer_ranks names →
        (gather_names env hostname_ptr do_split s).2.communicators = s.communicators) := by
  subst hnames
  subst hd
  obtain ⟨hlog, hcomm⟩ := gather_names_links env hostname_ptr do_split s hdriver
  have hdlt : (MPI_Allgather env hostname_ptr).indexOf "" < (MPI_Allgather env hostname_ptr).length :=
    List.indexOf_lt_length.mpr hdriver
  have hdname : (MPI_Allgather env hostname_ptr).getD
      ((MPI_Allgather env hostname_ptr).indexOf "") "" = "" :=
    ((indexOf_eq_iff_first "" _ _ hdlt).mp rfl).1
  have hpeer_ne : ∀ f, f ∈ peer_ranks (MPI_Allgather env hostname_ptr) →
      f ≠ (MPI_Allgather env hostname_ptr).indexOf "" := by
    intro f hf heq
    have hp := (first_occurrence_of_peer_iff _ f).mp ((mem_peer_ranks _ f).mp hf)
    rw [heq] at hp
    exact hp.1 hdname
  refine ⟨⟨?_, hdname⟩, hlog, ?_, hcomm, ?_, ?_, ?_⟩
  · rw [find_driver_rank_eq, if_pos hdriver]
  · intro r f _
    unfold color_key
    by_cases h1 : r = (MPI_Allgather env hostname_ptr).indexOf ""
    · simp [h1]
    · by_cases h2 : r = f
      · subst h2
        simp [h1]
      · simp [h1, h2]
  · intro hr
    rw [hcomm, List.filter_eq_self.mpr (fun a _ => by simp [hr])]
    congr 1
    apply List.map_congr_left
    intro f _
    simp [color_key, hr]
  · intro hr
    have hne := hpeer_ne _ hr
    have hfilter : (peer_ranks (MPI_Allgather env hostname_ptr)).filter (fun f => decide
        (env.world_rank = (MPI_Allgather env hostname_ptr).indexOf "" ∨ env.world_rank = f))
        = [env.world_rank] := by
      have hcongr : (peer_ranks (MPI_Allgather env hostname_ptr)).filter (fun f => decide
          (env.world_rank = (MPI_Allgather env hostname_ptr).indexOf "" ∨ env.world_rank = f))
          = (peer_ranks (MPI_Allgather env hostname_ptr)).filter (fun f => decide
            (f = env.world_rank)) := by
        apply List.filter_congr
        intro f _
        simp only [hne, false_or, decide_eq_decide]
        exact eq_comm
      rw [hcongr, List.filter_eq, List.count_eq_one_of_mem (nodup_peer_ranks _) hr]
      rfl
    rw [hcomm, hfilter]
    simp [color_key, hne]
  · intro hne hnot
    have hfilter : (peer_ranks (MPI_Allgather env hostname_ptr)).filter (fun f => decide
        (env.world_rank = (MPI_Allgather env hostname_ptr).indexOf "" ∨ env.world_rank = f))
        = [] := by
      rw [List.filter_eq_nil_iff]
      intro f hf hp
      simp only [hne, false_or, decide_eq_true_eq] at hp
      rw [← hp] at hf
      exact hnot hf
    rw [hcomm, hfilter]
    simp

theorem gather_names_peer_links_witness :
    (gather_names env_ok "" true State.initial).2.communicators =
        State.initial.communicators ++ (peer_ranks (MPI_Allgather env_ok "")).map
          (fun f => Communicator.CommunicatorMPI
            (MPI_Comm.split (State.initial.count Call.isSplit +
              peers_before (MPI_Allgather env_ok "") f) 1 0) 0)
    ∧ peer_ranks (MPI_Allgather env_ok "") = [1, 2] :=
  ⟨(gather_names_peer_links env_ok "" true State.initial (MPI_Allgather env_ok "") 0 rfl
      (by decide) (by decide)).2.2.2.2.1 rfl, by decide⟩

/-! ### The communicator handed back by MDI_Init -/

/-- Claim C10, evaluated where the code departs from it. After a first call of `MDI_Init`
with method MPI has set the group-mode flag, a second, successful call with method TCP
replaces the communicator behind the caller's pointer, `handle 7`, by the stored intra-code
communicator, although the method of that call is not MPI. -/
theorem MDI_Init_rewrites_handle_on_later_tcp_call :
    MDI_Init env_ok 0 "-role DRIVER -method MPI -name driver _language C"
        (some MPI_Comm.MPI_COMM_WORLD) State.initial =
      Outcome.ret (0, some (MPI_Comm.split 2 0 0)) state_after_group_init
    ∧ MDI_Init env_ok 0 "-role DRIVER -method TCP -name driver -port 8021 _language C"
        (some (MPI_Comm.handle 7)) state_after_group_init =
      Outcome.ret (0, some (MPI_Comm.split 2 0 0))
        { state_after_group_init with
          tcp_socket := 3
          driver_sockfd := 3
          log := state_after_group_init.log ++
            [Call.MPI_Comm_rank, Call.socket, Call.signal_SIGINT, Call.setsockopt 3,
              Call.bind 3 8021, Call.listen 3 20] }
    ∧ MPI_Comm.split 2 0 0 ≠ MPI_Comm.handle 7 := by
  refine ⟨by decide, ?_, by decide⟩
  set_option maxRecDepth 4000 in decide

/-! ### The registry across calls -/

theorem State.appends_only_refl (s : State) : s.appends_only s :=
  ⟨rfl, List.prefix_refl _, Or.inl rfl⟩

theorem State.appends_only_trans {s1 s2 s3 : State} (h12 : s1.appends_only s2)
    (h23 : s2.appends_only s3) : s1.appends_only s3 := by
  obtain ⟨a1, a2, a3⟩ := h12
  obtain ⟨b1, b2, b3⟩ := h23
  refine ⟨b1.trans a1, List.IsPrefix.trans a2 b2, ?_⟩
  rcases b3 with b3 | b3
  · rcases a3 with a3 | a3
    · exact Or.inl (b3.trans a3)
    · exact Or.inr (b3.trans a3)
  · exact Or.inr b3

theorem State.appends_only_call (s : State) (c : Call) : s.appends_only (s.call c) :=
  ⟨rfl, List.prefix_refl _, Or.inl rfl⟩

theorem State.appends_only_new_communicator (s : State) (c : Communicator) :
    s.appends_only (s.new_communicator c) :=
  ⟨rfl, List.prefix_append _ _, Or.inl rfl⟩

theorem State.appends_only_set_any_initialization (s : State) :
    s.appends_only s.set_any_initialization := by
  unfold State.set_any_initialization
  split
  · exact ⟨rfl, List.prefix_refl _, Or.inl rfl⟩
  · exact State.appends_only_refl s

theorem State.appends_only_rank_query (s : State) (world_comm : Option MPI_Comm) :
    s.appends_only (s.rank_query world_comm) := by
  cases world_comm
  · exact State.appends_only_refl s
  · exact State.appends_only_call s _

/-- `appends_only` looks at three fields only. -/
theorem State.appends_only_of_fields (s s1 s2 : State) (h : s.appends_only s1)
    (hc : s2.returned_comms = s1.returned_comms) (hr : s2.communicators = s1.communicators)
    (hm : s2.mpi_initialization = s1.mpi_initialization ∨ s2.mpi_initialization = 1) :
    s.appends_only s2 := by
  refine State.appends_only_trans h ⟨hc, ?_, hm⟩
  rw [hr]

theorem MDI_Listen_TCP_appends_only (env : Env) (port : Int) (s : State) :
    s.appends_only (MDI_Listen_TCP env port s).2 := by
  unfold MDI_Listen_TCP
  dsimp only
  split
  · simp [State.appends_only, State.call]
  · split
    · simp [State.appends_only, State.call]
    · split
      · simp [State.appends_only, State.call]
      · split <;> simp [State.appends_only, State.call]

theorem connect_loop_appends_only (env : Env) (port : Int) (fuel : Nat) :
    ∀ (sockfd : Int) (s : State) (r : Int × State),
      connect_loop env port fuel sockfd s = some r → s.appends_only r.2 := by
  induction fuel with
  | zero =>
    intro sockfd s r h
    simp [connect_loop] at h
  | succ fuel ih =>
    intro sockfd s r h
    rw [connect_loop] at h
    dsimp only at h
    split at h
    · simp only [Option.some.injEq] at h
      rw [← h]
      exact State.appends_only_trans (State.appends_only_call s _)
        (State.appends_only_new_communicator _ _)
    · split at h
      · simp only [Option.some.injEq] at h
        rw [← h]
        simp [State.appends_only, State.call]
      · split at h
        · simp only [Option.some.injEq] at h
          rw [← h]
          simp [State.appends_only, State.call]
        · have hf := ih _ _ r h
          refine State.appends_only_trans ?_ hf
          simp [State.appends_only, State.call]
    · simp only [Option.some.injEq] at h
      rw [← h]
      simp [State.appends_only, State.call]

theorem MDI_Request_Connection_TCP_appends_only (env : Env) (fuel : Nat) (port : Int)
    (hostname_ptr : String) (s : State) (r : Int × State)
    (h : MDI_Request_Connection_TCP env fuel port hostname_ptr s = some r) :
    s.appends_only r.2 := by
  have h0 := State.appends_only_set_any_initialization s
  unfold MDI_Request_Connection_TCP at h
  dsimp only at h
  split at h
  · simp only [Option.some.injEq] at h
    rw [← h]
    exact State.appends_only_trans h0 (by simp [State.appends_only, State.call])
  · simp only [Option.some.injEq] at h
    rw [← h]
    exact State.appends_only_trans h0 (by simp [State.appends_only, State.call])
  · split at h
    · simp only [Option.some.injEq] at h
      rw [← h]
      exact State.appends_only_trans h0 (by simp [State.appends_only, State.call])
    · have hf := connect_loop_appends_only env port fuel _ _ r h
      refine State.appends_only_trans h0 (State.appends_only_trans ?_ hf)
      simp [State.appends_only, State.call]

theorem gather_entry_appends_only (env : Env) (hostname_ptr : String) (s : State) :
    s.appends_only (gather_entry env hostname_ptr s) := by
  unfold gather_entry
  dsimp only
  split <;> simp [State.appends_only, State.call]

theorem gather_names_appends_only (env : Env) (hostname_ptr : String) (do_split : Bool)
    (s : State) : s.appends_only (gather_names env hostname_ptr do_split s).2 := by
  have hentry := gather_entry_appends_only env hostname_ptr s
  obtain ⟨_, _, hcomm, _, _, hret, hmpi, _⟩ := gather_loop_spec (MPI_Allgather env hostname_ptr)
    env.world_rank (find_driver_rank (MPI_Allgather env hostname_ptr))
    { nunique_names := 0, unique_names := [], s := gather_entry env hostname_ptr s }
    env.names.length
  have hexit : s.appends_only (gather_exit env hostname_ptr s).s := by
    refine State.appends_only_trans hentry ⟨?_, ?_, Or.inl ?_⟩
    · exact hret
    · rw [gather_exit, hcomm]
      exact List.prefix_append _ _
    · exact hmpi
  rw [gather_names_eq]
  cases do_split
  · exact hexit
  · exact State.appends_only_of_fields s _ _ hexit rfl rfl (Or.inl rfl)

theorem mdi_error_final_state {α : Type} (message : String) (s s' : State)
    (h : (mdi_error message s : Outcome α).final_state = some s') : s.appends_only s' := by
  simp only [mdi_error, Outcome.final_state, Option.some.injEq] at h
  rw [← h]
  exact State.appends_only_call s _

theorem MDI_Init_establish_appends_only (env : Env) (fuel : Nat) (o : Options)
    (do_split : Bool) (mpi_rank : Int) (s s' : State)
    (h : (MDI_Init_establish env fuel o do_split mpi_rank s).final_state = some s') :
    s.appends_only s' := by
  unfold MDI_Init_establish at h
  simp only [read_local] at h
  repeat' split at h
  all_goals first
    | exact mdi_error_final_state _ _ _ h
    | (simp only [Outcome.final_state, Option.some.injEq] at h
       rw [← h]
       first
        | exact State.appends_only_refl s
        | exact MDI_Listen_TCP_appends_only _ _ _
        | exact State.appends_only_of_fields s _ _ (gather_names_appends_only _ _ _ s)
            rfl rfl (Or.inr rfl)
        | exact MDI_Request_Connection_TCP_appends_only _ _ _ _ _ _ (by assumption))
    | simp [Outcome.final_state] at h

theorem MDI_Init_finish_final_state (world_comm : Option MPI_Comm) (do_split : Bool)
    (s s' : State) (h : (MDI_Init_finish world_comm do_split s).final_state = some s') :
    s' = s := by
  unfold MDI_Init_finish at h
  split at h
  · split at h
    · split at h <;> simp only [Outcome.final_state, Option.some.injEq] at h <;> exact h.symm
    · simp only [Outcome.final_state, Option.some.injEq] at h
      exact h.symm
  · simp only [Outcome.final_state, Option.some.injEq] at h
    exact h.symm

/-- However a call of `MDI_Init` ends, it leaves the cursor untouched and only appends to
the registry. -/
theorem MDI_Init_appends_only (env : Env) (fuel : Nat) (options : String)
    (world_comm : Option MPI_Comm) (s s' : State)
    (h : (MDI_Init env fuel options world_comm s).final_state = some s') :
    s.appends_only s' := by
  have h0 := State.appends_only_rank_query s world_comm
  have h1 := State.appends_only_set_any_initialization (s.rank_query world_comm)
  have hest : ∀ (o : Options) (do_split : Bool) (out : Outcome Unit) (s1 : State),
      MDI_Init_establish env fuel o do_split (get_mpi_rank env world_comm)
        (s.rank_query world_comm).set_any_initialization = out →
      out.final_state = some s1 → s.appends_only s1 := by
    intro o do_split out s1 hrun hfinal
    refine State.appends_only_trans h0 (State.appends_only_trans h1 ?_)
    apply MDI_Init_establish_appends_only env fuel o do_split _ _ s1
    rw [hrun]
    exact hfinal
  unfold MDI_Init at h
  simp only [read_local] at h
  split at h
  · exact State.appends_only_trans h0 (mdi_error_final_state _ _ _ h)
  · split at h
    · exact State.appends_only_trans h0 (mdi_error_final_state _ _ _ h)
    · split at h
      · exact State.appends_only_trans h0 (mdi_error_final_state _ _ _ h)
      · split at h
        · simp only [Outcome.final_state, Option.some.injEq] at h
          rw [← h]
          exact h0
        · split at h
          · rename_i u s1 hrun
            have hs := MDI_Init_finish_final_state _ _ _ _ h
            rw [hs]
            exact hest _ _ _ s1 hrun rfl
          · rename_i status s1 hrun
            simp only [Outcome.final_state, Option.some.injEq] at h
            rw [← h]
            exact hest _ _ _ s1 hrun rfl
          · simp [Outcome.final_state] at h
          · rename_i s1 hrun
            simp only [Outcome.final_state, Option.some.injEq] at h
            rw [← h]
            exact hest _ _ _ s1 hrun rfl

/-- What one call of `MDI_Accept_Communicator` does to the registry, however it ends: the
registry is only appended to, and the cursor either stays, with `MDI_NULL_COMM` returned or
the process terminated, or moves up by one, with the new cursor returned. -/
theorem MDI_Accept_Communicator_step (env : Env) (s s' : State)
    (h : (MDI_Accept_Communicator env s).final_state = some s') :
    s.communicators <+: s'.communicators
    ∧ s'.mpi_initialization = s.mpi_initialization
    ∧ ((s'.returned_comms = s.returned_comms
        ∧ ∀ comm, MDI_Accept_Communicator env s = Outcome.ret comm s' → comm = MDI_NULL_COMM)
      ∨ (s'.returned_comms = s.returned_comms + 1
        ∧ s'.returned_comms ≤ (s'.communicators.length : Int)
        ∧ MDI_Accept_Communicator env s = Outcome.ret s'.returned_comms s')) := by
  unfold MDI_Accept_Communicator at h ⊢
  dsimp only at h ⊢
  by_cases h1 : s.returned_comms < (s.communicators.length : Int)
  · simp only [if_pos h1, Outcome.final_state, Option.some.injEq] at h ⊢
    subst h
    refine ⟨List.prefix_refl _, rfl, Or.inr ⟨rfl, ?_, rfl⟩⟩
    simp only
    omega
  · simp only [if_neg h1] at h ⊢
    by_cases h2 : s.tcp_socket > 0
    · simp only [if_pos h2] at h ⊢
      by_cases h3 : env.accept_res (s.count Call.isAccept) < 0
      · simp only [if_pos h3, Outcome.final_state, Option.some.injEq] at h ⊢
        subst h
        refine ⟨List.prefix_refl _, rfl, Or.inl ⟨rfl, ?_⟩⟩
        intro comm hc
        simp at hc
      · simp only [if_neg h3] at h ⊢
        by_cases h4 : ((s.call (Call.accept s.tcp_socket)).new_communicator
            (Communicator.CommunicatorTCP (env.accept_res (s.count Call.isAccept)))).returned_comms
            < ((((s.call (Call.accept s.tcp_socket)).new_communicator
              (Communicator.CommunicatorTCP
                (env.accept_res (s.count Call.isAccept)))).communicators.length : Nat) : Int)
        · simp only [if_pos h4, Outcome.final_state, Option.some.injEq] at h ⊢
          subst h
          refine ⟨List.prefix_append _ _, rfl, Or.inr ⟨rfl, ?_, rfl⟩⟩
          simp only
          omega
        · simp only [if_neg h4, Outcome.final_state, Option.some.injEq] at h ⊢
          subst h
          refine ⟨List.prefix_append _ _, rfl, Or.inl ⟨rfl, ?_⟩⟩
          intro comm hc
          simp only [Outcome.ret.injEq, and_true] at hc
          exact hc.symm
    · simp only [if_neg h2, Outcome.final_state, Option.some.injEq] at h ⊢
      subst h
      refine ⟨List.prefix_refl _, rfl, Or.inl ⟨rfl, ?_⟩⟩
      intro comm hc
      simp only [Outcome.ret.injEq, and_true] at hc
      exact hc.symm

/-- A handle between 1 and the length of the registry designates a registry entry. -/
theorem communicator_of_valid (s : State) (comm : Int) (h1 : 1 ≤ comm)
    (h2 : comm ≤ (s.communicators.length : Int)) :
    ∃ c, s.communicator_of comm = some c
      ∧ s.communicators.get? (comm - 1).toNat = some c := by
  have hlt : (comm - 1).toNat < s.communicators.length := by omega
  refine ⟨s.communicators.get ⟨(comm - 1).toNat, hlt⟩, ?_, ?_⟩
  · rw [State.communicator_of, if_pos h1]
    exact List.get?_eq_get hlt
  · exact List.get?_eq_get hlt

/-- The state in which `MDI_Send` and `MDI_Recv` make the transfer: the state on entry,
with the usage error on record when `mpi_initialization == 1 && intra_rank != 0`. -/
theorem MDI_Send_eq (env : Env) (buf : List Int) (count datatype comm : Int) (s : State)
    (c : Communicator) (hc : s.communicator_of comm = some c) :
    MDI_Send env buf count datatype comm s =
      if env.transfer_res (s.count Call.isTransfer) < 0 then
        Outcome.exit 1
          { s with log := s.log ++
            (if s.mpi_initialization = 1 ∧ s.intra_rank ≠ 0 then
              [Call.perror "Called MDI_Send with incorrect rank"] else [])
            ++ [Call.send c buf count datatype] }
      else
        Outcome.ret 0
          { s with log := s.log ++
            (if s.mpi_initialization = 1 ∧ s.intra_rank ≠ 0 then
              [Call.perror "Called MDI_Send with incorrect rank"] else [])
            ++ [Call.send c buf count datatype] } := by
  unfold MDI_Send
  dsimp only
  by_cases hrep : s.mpi_initialization = 1 ∧ s.intra_rank ≠ 0
  · have hc' : (s.call (Call.perror "Called MDI_Send with incorrect rank")).communicator_of comm
        = some c := hc
    simp only [if_pos hrep, hc', Communicator_send, State.count_call, Call.isTransfer]
    by_cases hres : env.transfer_res (s.count Call.isTransfer) < 0
    · simp [hres, State.call]
    · simp [hres, State.call]
  · simp only [if_neg hrep, hc, Communicator_send]
    by_cases hres : env.transfer_res (s.count Call.isTransfer) < 0
    · simp [hres, State.call]
    · simp [hres, State.call]

theorem MDI_Recv_eq (env : Env) (count datatype comm : Int) (s : State)
    (c : Communicator) (hc : s.communicator_of comm = some c) :
    MDI_Recv env count datatype comm s =
      if env.transfer_res (s.count Call.isTransfer) < 0 then
        Outcome.exit 1
          { s with log := s.log ++
            (if s.mpi_initialization = 1 ∧ s.intra_rank ≠ 0 then
              [Call.perror "Called MDI_Recv with incorrect rank"] else [])
            ++ [Call.recv c count datatype] }
      else
        Outcome.ret (0, env.recv_data (s.count Call.isTransfer))
          { s with log := s.log ++
            (if s.mpi_initialization = 1 ∧ s.intra_rank ≠ 0 then
              [Call.perror "Called MDI_Recv with incorrect rank"] else [])
            ++ [Call.recv c count datatype] } := by
  unfold MDI_Recv
  dsimp only
  by_cases hrep : s.mpi_initialization = 1 ∧ s.intra_rank ≠ 0
  · have hc' : (s.call (Call.perror "Called MDI_Recv with incorrect rank")).communicator_of comm
        = some c := hc
    simp only [if_pos hrep, hc', Communicator_recv, State.count_call, Call.isTransfer]
    by_cases hres : env.transfer_res (s.count Call.isTransfer) < 0
    · simp [hres, State.call]
    · simp [hres, State.call]
  · simp only [if_neg hrep, hc, Communicator_recv]
    by_cases hres : env.transfer_res (s.count Call.isTransfer) < 0
    · simp [hres, State.call]
    · simp [hres, State.call]

/-- `MDI_Send` changes nothing but the record of calls. -/
theorem MDI_Send_appends_only (env : Env) (buf : List Int) (count datatype comm : Int)
    (s s' : State) (h : (MDI_Send env buf count datatype comm s).final_state = some s') :
    s'.returned_comms = s.returned_comms ∧ s'.communicators = s.communicators
      ∧ s'.mpi_initialization = s.mpi_initialization := by
  cases hc : s.communicator_of comm with
  | none =>
    unfold MDI_Send at h
    dsimp only at h
    by_cases hrep : s.mpi_initialization = 1 ∧ s.intra_rank ≠ 0
    · have hc' : (s.call (Call.perror "Called MDI_Send with incorrect rank")).communicator_of
          comm = none := hc
      simp only [if_pos hrep, hc', Outcome.final_state, Option.some.injEq] at h
      rw [← h]
      exact ⟨rfl, rfl, rfl⟩
    · simp only [if_neg hrep, hc, Outcome.final_state, Option.some.injEq] at h
      rw [← h]
      exact ⟨rfl, rfl, rfl⟩
  | some c =>
    rw [MDI_Send_eq env buf count datatype comm s c hc] at h
    split at h <;>
      · simp only [Outcome.final_state, Option.some.injEq] at h
        rw [← h]
        exact ⟨rfl, rfl, rfl⟩

/-- `MDI_Recv` changes nothing but the record of calls. -/
theorem MDI_Recv_appends_only (env : Env) (count datatype comm : Int)
    (s s' : State) (h : (MDI_Recv env count datatype comm s).final_state = some s') :
    s'.returned_comms = s.returned_comms ∧ s'.communicators = s.communicators
      ∧ s'.mpi_initialization = s.mpi_initialization := by
  cases hc : s.communicator_of comm with
  | none =>
    unfold MDI_Recv at h
    dsimp only at h
    by_cases hrep : s.mpi_initialization = 1 ∧ s.intra_rank ≠ 0
    · have hc' : (s.call (Call.perror "Called MDI_Recv with incorrect rank")).communicator_of
          comm = none := hc
      simp only [if_pos hrep, hc', Outcome.final_state, Option.some.injEq] at h
      rw [← h]
      exact ⟨rfl, rfl, rfl⟩
    · simp only [if_neg hrep, hc, Outcome.final_state, Option.some.injEq] at h
      rw [← h]
      exact ⟨rfl, rfl, rfl⟩
  | some c =>
    rw [MDI_Recv_eq env count datatype comm s c hc] at h
    split at h <;>
      · simp only [Outcome.final_state, Option.some.injEq] at h
        rw [← h]
        exact ⟨rfl, rfl, rfl⟩

/-- The cursor bounds and the range of the group-mode flag carry over to a state that only
appended to the registry. -/
theorem invariant_of_appends_only (s s' : State) (h : s.appends_only s')
    (hinv : 0 ≤ s.returned_comms ∧ s.returned_comms ≤ (s.communicators.length : Int)
      ∧ (s.mpi_initialization = 0 ∨ s.mpi_initialization = 1)) :
    0 ≤ s'.returned_comms ∧ s'.returned_comms ≤ (s'.communicators.length : Int)
      ∧ (s'.mpi_initialization = 0 ∨ s'.mpi_initialization = 1) := by
  obtain ⟨h1, h2, h3⟩ := h
  obtain ⟨i1, i2, i3⟩ := hinv
  have hlen := List.IsPrefix.length_le h2
  refine ⟨by omega, by omega, ?_⟩
  rcases h3 with h3 | h3
  · rw [h3]
    exact i3
  · exact Or.inr h3

/-- In every reachable state the cursor lies between 0 and the length of the registry, and
the group-mode flag is 0 or 1. -/
theorem reachable_invariant (s : State) (h : Reachable s) :
    0 ≤ s.returned_comms ∧ s.returned_comms ≤ (s.communicators.length : Int)
      ∧ (s.mpi_initialization = 0 ∨ s.mpi_initialization = 1) := by
  induction h with
  | initial => decide
  | init env fuel options world_comm s s' value _ hrun ih =>
    exact invariant_of_appends_only s s'
      (MDI_Init_appends_only env fuel options world_comm s s' (by rw [hrun]; rfl)) ih
  | listen env port s _ ih =>
    exact invariant_of_appends_only s _ (MDI_Listen_TCP_appends_only env port s) ih
  | request env fuel port hostname_ptr s r _ hrun ih =>
    exact invariant_of_appends_only s _
      (MDI_Request_Connection_TCP_appends_only env fuel port hostname_ptr s r hrun) ih
  | gather env hostname_ptr do_split s _ ih =>
    exact invariant_of_appends_only s _ (gather_names_appends_only env hostname_ptr do_split s) ih
  | accept env s s' comm _ hrun ih =>
    obtain ⟨hpre, hmpi, hcur⟩ := MDI_Accept_Communicator_step env s s' (by rw [hrun]; rfl)
    obtain ⟨i1, i2, i3⟩ := ih
    have hlen := List.IsPrefix.length_le hpre
    refine ⟨?_, ?_, by rw [hmpi]; exact i3⟩
    · rcases hcur with hcur | hcur <;> omega
    · rcases hcur with hcur | hcur <;> omega
  | send env buf count datatype comm s s' value _ hrun ih =>
    obtain ⟨h1, h2, h3⟩ := MDI_Send_appends_only env buf count datatype comm s s'
      (by rw [hrun]; rfl)
    rw [h1, h2, h3]
    exact ih
  | recv env count datatype comm s s' value _ hrun ih =>
    obtain ⟨h1, h2, h3⟩ := MDI_Recv_appends_only env count datatype comm s s'
      (by rw [hrun]; rfl)
    rw [h1, h2, h3]
    exact ih
  | set_intra_rank rank s _ ih => exact ih

/-- Claim C12. In every state reachable from the initial state by calls of `MDI_Init`
(first or later), of the establishment functions and of `MDI_Accept_Communicator` (and of
`MDI_Send`, `MDI_Recv` and `MDI_Set_MPI_Intra_Rank`), the cursor lies between 0 and the
length of the registry. From such a state, `MDI_Init` and the establishment functions leave
the cursor untouched and only append to the registry, however they end;
`MDI_Accept_Communicator` only appends to the registry and either leaves the cursor and
returns `MDI_NULL_COMM`, or moves the cursor up by one and returns the new cursor, a handle
`h` with `1 <= h <= registry length` whose entry `communicators[h-1]` exists. -/
theorem registry_invariant (s : State) (hreach : Reachable s) :
    (0 ≤ s.returned_comms ∧ s.returned_comms ≤ (s.communicators.length : Int))
    ∧ (∀ (env : Env) (fuel : Nat) (options : String) (world_comm : Option MPI_Comm)
        (s' : State), (MDI_Init env fuel options world_comm s).final_state = some s' →
        s'.returned_comms = s.returned_comms ∧ s.communicators <+: s'.communicators)
    ∧ (∀ (env : Env) (port : Int),
        (MDI_Listen_TCP env port s).2.returned_comms = s.returned_comms
          ∧ s.communicators <+: (MDI_Listen_TCP env port s).2.communicators)
    ∧ (∀ (env : Env) (fuel : Nat) (port : Int) (hostname_ptr : String) (r : Int × State),
        MDI_Request_Connection_TCP env fuel port hostname_ptr s = some r →
        r.2.returned_comms = s.returned_comms ∧ s.communicators <+: r.2.communicators)
    ∧ (∀ (env : Env) (hostname_ptr : String) (do_split : Bool),
        (gather_names env hostname_ptr do_split s).2.returned_comms = s.returned_comms
          ∧ s.communicators <+: (gather_names env hostname_ptr do_split s).2.communicators)
    ∧ (∀ (env : Env) (comm : Int) (s' : State),
        MDI_Accept_Communicator env s = Outcome.ret comm s' →
        Reachable s' ∧ s.communicators <+: s'.communicators
          ∧ ((comm = MDI_NULL_COMM ∧ s'.returned_comms = s.returned_comms)
            ∨ (comm = s.returned_comms + 1 ∧ s'.returned_comms = s.returned_comms + 1
              ∧ 1 ≤ comm ∧ comm ≤ (s'.communicators.length : Int)
              ∧ ∃ c, s'.communicator_of comm = some c)))
    ∧ (∀ (env : Env) (status : Int) (s' : State),
        MDI_Accept_Communicator env s = Outcome.exit status s' →
        s'.returned_comms = s.returned_comms ∧ s.communicators <+: s'.communicators) := by
  obtain ⟨hlo, hhi, _⟩ := reachable_invariant s hreach
  refine ⟨⟨hlo, hhi⟩, ?_, ?_, ?_, ?_, ?_, ?_⟩
  · intro env fuel options world_comm s' h
    have hf := MDI_Init_appends_only env fuel options world_comm s s' h
    exact ⟨hf.1, hf.2.1⟩
  · intro env port
    have hf := MDI_Listen_TCP_appends_only env port s
    exact ⟨hf.1, hf.2.1⟩
  · intro env fuel port hostname_ptr r h
    have hf := MDI_Request_Connection_TCP_appends_only env fuel port hostname_ptr s r h
    exact ⟨hf.1, hf.2.1⟩
  · intro env hostname_ptr do_split
    have hf := gather_names_appends_only env hostname_ptr do_split s
    exact ⟨hf.1, hf.2.1⟩
  · intro env comm s' hrun
    obtain ⟨hpre, _, hcur⟩ := MDI_Accept_Communicator_step env s s' (by rw [hrun]; rfl)
    refine ⟨Reachable.accept env s s' comm hreach hrun, hpre, ?_⟩
    rcases hcur with ⟨hsame, hnull⟩ | ⟨hnext, hle, hret⟩
    · exact Or.inl ⟨hnull comm hrun, hsame⟩
    · right
      rw [hrun] at hret
      simp only [Outcome.ret.injEq, and_true] at hret
      have h1 : 1 ≤ comm := by omega
      have h2 : comm ≤ (s'.communicators.length : Int) := by omega
      obtain ⟨c, hc, _⟩ := communicator_of_valid s' comm h1 h2
      exact ⟨by omega, hnext, h1, h2, c, hc⟩
  · intro env status s' hrun
    obtain ⟨hpre, _, hcur⟩ := MDI_Accept_Communicator_step env s s' (by rw [hrun]; rfl)
    refine ⟨?_, hpre⟩
    rcases hcur with ⟨hsame, _⟩ | ⟨_, _, hret⟩
    · exact hsame
    · rw [hrun] at hret
      simp at hret

theorem registry_invariant_witness :
    (0 ≤ state_engine_connected.returned_comms
      ∧ state_engine_connected.returned_comms ≤
        (state_engine_connected.communicators.length : Int))
    ∧ (Reachable { state_engine_connected with returned_comms := 1 }
      ∧ state_engine_connected.communicators <+: state_engine_connected.communicators
      ∧ (((1 : Int) = MDI_NULL_COMM ∧ (1 : Int) = state_engine_connected.returned_comms)
        ∨ ((1 : Int) = state_engine_connected.returned_comms + 1
          ∧ (1 : Int) = state_engine_connected.returned_comms + 1
          ∧ (1 : Int) ≤ 1 ∧ (1 : Int) ≤ (state_engine_connected.communicators.length : Int)
          ∧ ∃ c, State.communicator_of { state_engine_connected with returned_comms := 1 } 1
            = some c))) :=
  ⟨(registry_invariant state_engine_connected
      (Reachable.request env_ok 1 8021 "driver-host" State.initial (0, state_engine_connected)
        Reachable.initial (by decide))).1,
   (registry_invariant state_engine_connected
      (Reachable.request env_ok 1 8021 "driver-host" State.initial (0, state_engine_connected)
        Reachable.initial (by decide))).2.2.2.2.2.1 env_ok 1
        { state_engine_connected with returned_comms := 1 } (by decide)⟩

/-! ### The usage report of MDI_Send and MDI_Recv -/

/-- Claim C11. In a reachable state, for a handle between 1 and the length of the registry,
`MDI_Send` and `MDI_Recv` report a usage error exactly when group mode is active and the
intra-code rank is not 0, and the report does not end the call: with or without it the
transfer of `(buf, count, datatype)` is made next, on the registry entry `handle - 1`. When
the transfer completes the call returns 0; when the transport fails in the transfer the
process is terminated, with or without the report. -/
theorem send_recv_usage_report (env : Env) (s : State) (hreach : Reachable s)
    (buf : List Int) (count datatype comm : Int) (hlow : 1 ≤ comm)
    (hhigh : comm ≤ (s.communicators.length : Int)) :
    ∃ c : Communicator, s.communicators.get? (comm - 1).toNat = some c
      ∧ (0 ≤ env.transfer_res (s.count Call.isTransfer) →
          MDI_Send env buf count datatype comm s =
            Outcome.ret 0
              { s with log := s.log ++
                (if s.mpi_initialization ≠ 0 ∧ s.intra_rank ≠ 0 then
                  [Call.perror "Called MDI_Send with incorrect rank"] else [])
                ++ [Call.send c buf count datatype] }
          ∧ MDI_Recv env count datatype comm s =
            Outcome.ret (0, env.recv_data (s.count Call.isTransfer))
              { s with log := s.log ++
                (if s.mpi_initialization ≠ 0 ∧ s.intra_rank ≠ 0 then
                  [Call.perror "Called MDI_Recv with incorrect rank"] else [])
                ++ [Call.recv c count datatype] })
      ∧ (env.transfer_res (s.count Call.isTransfer) < 0 →
          MDI_Send env buf count datatype comm s =
            Outcome.exit 1
              { s with log := s.log ++
                (if s.mpi_initialization ≠ 0 ∧ s.intra_rank ≠ 0 then
                  [Call.perror "Called MDI_Send with incorrect rank"] else [])
                ++ [Call.send c buf count datatype] }
          ∧ MDI_Recv env count datatype comm s =
            Outcome.exit 1
              { s with log := s.log ++
                (if s.mpi_initialization ≠ 0 ∧ s.intra_rank ≠ 0 then
                  [Call.perror "Called MDI_Recv with incorrect rank"] else [])
                ++ [Call.recv c count datatype] }) := by
  obtain ⟨c, hc, hget⟩ := communicator_of_valid s comm hlow hhigh
  obtain ⟨_, _, hflag⟩ := reachable_invariant s hreach
  have hiff : (s.mpi_initialization = 1 ∧ s.intra_rank ≠ 0)
      ↔ (s.mpi_initialization ≠ 0 ∧ s.intra_rank ≠ 0) := by
    constructor
    · intro h
      exact ⟨by omega, h.2⟩
    · intro h
      refine ⟨?_, h.2⟩
      rcases hflag with h0 | h1
      · exact absurd h0 h.1
      · exact h1
  have hsend := MDI_Send_eq env buf count datatype comm s c hc
  have hrecv := MDI_Recv_eq env count datatype comm s c hc
  simp only [hiff] at hsend hrecv
  refine ⟨c, hget, ?_, ?_⟩
  · intro hok
    rw [hsend, hrecv, if_neg (not_lt.mpr hok), if_neg (not_lt.mpr hok)]
    exact ⟨rfl, rfl⟩
  · intro hfail
    rw [hsend, hrecv, if_pos hfail, if_pos hfail]
    exact ⟨rfl, rfl⟩

theorem send_recv_usage_report_witness :
    ∃ c : Communicator,
      (MDI_Set_MPI_Intra_Rank 1 state_after_group_init).communicators.get? ((1 : Int) - 1).toNat
        = some c
      ∧ MDI_Send env_ok [7] 1 0 1 (MDI_Set_MPI_Intra_Rank 1 state_after_group_init) =
          Outcome.ret 0
            { MDI_Set_MPI_Intra_Rank 1 state_after_group_init with
              log := (MDI_Set_MPI_Intra_Rank 1 state_after_group_init).log ++
                (if (MDI_Set_MPI_Intra_Rank 1 state_after_group_init).mpi_initialization ≠ 0
                    ∧ (MDI_Set_MPI_Intra_Rank 1 state_after_group_init).intra_rank ≠ 0 then
                  [Call.perror "Called MDI_Send with incorrect rank"] else [])
                ++ [Call.send c [7] 1 0] } :=
  match send_recv_usage_report env_ok (MDI_Set_MPI_Intra_Rank 1 state_after_group_init)
      (Reachable.set_intra_rank 1 state_after_group_init
        (Reachable.init env_ok 0 "-role DRIVER -method MPI -name driver _language C"
          (some MPI_Comm.MPI_COMM_WORLD) State.initial state_after_group_init
          (0, some (MPI_Comm.split 2 0 0)) Reachable.initial (by decide)))
      [7] 1 0 1 (by decide) (by decide) with
  | ⟨c, hget, hok, _⟩ => ⟨c, hget, (hok (by decide)).1⟩

/-! ### An engine with an unrecognised method -/

/-- Let the options be read with `-role`, `-name` and `_language` present and a method other
than "MPI" and "TCP". For role ENGINE, in a process whose group mode is inactive, `MDI_Init`
returns 0 and leaves the caller's communicator alone; it reports no error, makes no
transport call, adds no communicator, stores no listening descriptor and leaves group mode
inactive. For role DRIVER it reports "Error in MDI_Init: method not recognized" and
terminates the process with status 1. -/
theorem MDI_Init_method_not_recognised (env : Env) (fuel : Nat) (options : String)
    (world_comm : Option MPI_Comm) (s : State) (o : Options) (language method : String)
    (hparse : read_options (calculate_argv options) Options.unread = Except.ok o)
    (hrole : o.has_role ≠ 0) (hname : o.has_name ≠ 0)
    (hlanguage : o.language = some language) (hmethod : o.method = some method)
    (hmpi : method ≠ "MPI") (htcp : method ≠ "TCP") :
    (o.role = some "ENGINE" → s.mpi_initialization = 0 →
      ∃ s' : State, MDI_Init env fuel options world_comm s = Outcome.ret (0, world_comm) s'
        ∧ s'.log.filter Call.isPerror = s.log.filter Call.isPerror
        ∧ s'.log.filter Call.isTransport = s.log.filter Call.isTransport
        ∧ s'.communicators = s.communicators
        ∧ s'.tcp_socket = s.tcp_socket
        ∧ s'.mpi_initialization = 0)
    ∧ (o.role = some "DRIVER" →
      ∃ s' : State, MDI_Init env fuel options world_comm s = Outcome.exit 1 s'
        ∧ s'.log.getLast? = some (Call.perror "Error in MDI_Init: method not recognized")
        ∧ s'.log.filter Call.isTransport = s.log.filter Call.isTransport
        ∧ s'.communicators = s.communicators) := by
  have hperror : ((s.rank_query world_comm).set_any_initialization).log.filter Call.isPerror
      = s.log.filter Call.isPerror := by
    rw [State.log_set_any_initialization]
    cases world_comm <;>
      simp [State.rank_query, State.call, List.filter_append, Call.isPerror]
  have htransport :
      ((s.rank_query world_comm).set_any_initialization).log.filter Call.isTransport
        = s.log.filter Call.isTransport := by
    rw [State.log_set_any_initialization, State.log_rank_query]
  have hcomm : ((s.rank_query world_comm).set_any_initialization).communicators
      = s.communicators := by
    rw [State.communicators_set_any_initialization, State.communicators_rank_query]
  have hsock : ((s.rank_query world_comm).set_any_initialization).tcp_socket = s.tcp_socket := by
    rw [State.tcp_socket_set_any_initialization, State.tcp_socket_rank_query]
  have hflag : ((s.rank_query world_comm).set_any_initialization).mpi_initialization
      = s.mpi_initialization := by
    rw [State.mpi_initialization_set_any_initialization, State.mpi_initialization_rank_query]
  constructor
  · intro hengine hinactive
    refine ⟨(s.rank_query world_comm).set_any_initialization, ?_, hperror, htransport, hcomm,
      hsock, hflag.trans hinactive⟩
    have hest : MDI_Init_establish env fuel o (get_do_split language)
        (get_mpi_rank env world_comm) (s.rank_query world_comm).set_any_initialization
        = Outcome.ret () (s.rank_query world_comm).set_any_initialization := by
      simp [MDI_Init_establish, read_local, hengine, hmethod, hmpi, htcp]
    have hfin : MDI_Init_finish world_comm (get_do_split language)
        (s.rank_query world_comm).set_any_initialization
        = Outcome.ret (0, world_comm) (s.rank_query world_comm).set_any_initialization := by
      unfold MDI_Init_finish
      rw [if_neg (by rw [hflag, hinactive]; simp)]
    simp only [MDI_Init, hparse, hrole, hname, if_false, read_local, hlanguage, hest, hfin]
  · intro hdriver
    refine ⟨((s.rank_query world_comm).set_any_initialization).call
      (Call.perror "Error in MDI_Init: method not recognized"), ?_, ?_, ?_, ?_⟩
    · have hest : MDI_Init_establish env fuel o (get_do_split language)
          (get_mpi_rank env world_comm) (s.rank_query world_comm).set_any_initialization
          = Outcome.exit 1 (((s.rank_query world_comm).set_any_initialization).call
            (Call.perror "Error in MDI_Init: method not recognized")) := by
        simp [MDI_Init_establish, read_local, hdriver, hmethod, hmpi, htcp, mdi_error]
      simp only [MDI_Init, hparse, hrole, hname, if_false, read_local, hlanguage, hest]
    · simp [State.call]
    · simp [State.call, List.filter_append, Call.isTransport, htransport]
    · simpa [State.call] using hcomm

/-- Claim C13, evaluated where the code departs from it. With `-role`, `-name` and the
method "LINK" given and no `_language` option, `MDI_Init` reads its local `language`, which
was never assigned, in the test that sets `do_split` (mdi.cpp, line 469), before it looks
at the method: the call is undefined for role ENGINE, where the claim has it return 0,
and for role DRIVER, where the claim has it report "method not recognized". With
`_language C` added, the engine call returns 0 having only set `any_initialization`, and
the driver call reports the error and exits with status 1. -/
theorem MDI_Init_unrecognised_method_reads_unassigned_language :
    MDI_Init env_ok 0 "-role ENGINE -method LINK -name MM" none State.initial =
      Outcome.fault State.initial
    ∧ MDI_Init env_ok 0 "-role DRIVER -method LINK -name MM" none State.initial =
      Outcome.fault State.initial
    ∧ (read_options (calculate_argv "-role ENGINE -method LINK -name MM")
        Options.unread).toOption = some { options_engine_link with language := none }
    ∧ MDI_Init env_ok 0 "-role ENGINE -method LINK -name MM _language C" none State.initial =
      Outcome.ret (0, none) { State.initial with any_initialization := 1 }
    ∧ MDI_Init env_ok 0 "-role DRIVER -method LINK -name MM _language C" none State.initial =
      Outcome.exit 1
        { State.initial with
          any_initialization := 1
          log := [Call.perror "Error in MDI_Init: method not recognized"] } := by
  decide

end MDI
